import Mathlib

/-!
Shallow embedding of the authoritative server loop of the rustcycles
repository (file src/server/game.rs) together with the data model it
operates on, and proofs checking the natural-language specification of
that loop against the code.

Modelling conventions:
* The generational pools of the host engine are modelled index-only: a
  pool is a list of optional slots, a handle is the slot index.  Within
  a single tick no claim depends on generation counters (no handle is
  reused between a free and a later lookup inside one tick), so bare
  indices are a faithful projection.
* Rust panics (indexing a dead handle, freeing a dead handle, a fatal
  listener error) are modelled as the value none of an Option result.
* The network is modelled by data carried in each client record: the
  batch of inbound messages the next receive call returns plus the
  closed flag, and the list of outcomes of successive sends to that
  client (an exhausted outcome list means the send succeeds).
* The mutual recursion between network_send and disconnect (a failed
  send triggers a disconnect, whose RemovePlayer broadcast can itself
  fail) is made structural with a fuel argument consumed at each nested
  disconnect; fuel is irrelevant on every execution that triggers no
  disconnect cascade.
-/

namespace Rustcycles

/-- Gameplay state of a player, from common/entities (PlayerState). -/
inductive PlayerState
  | connecting
  | observing
  | playing
deriving DecidableEq

/-- A player owned by the authoritative game state. -/
structure Player where
  ps : PlayerState
  input : Int
deriving DecidableEq

/-- Modelled from the spec: Player::new is in the missing common/entities
module; the spec fixes the initial state of an accepted player as
observing until it explicitly joins. The input starts neutral. -/
def Player.new : Player :=
  { ps := PlayerState.observing, input := 0 }

/-- A per-player vehicle, associated to its owner by the player handle.
The body handle points into the engine scene. -/
structure Cycle where
  player_handle : Nat
  body_handle : Nat
deriving DecidableEq

/-- Client-to-server wire messages (ClientMessage). -/
inductive ClientMessage
  | input (i : Int)
  | chat (text : String)
  | join
  | observe
deriving DecidableEq

/-- Payload of AddPlayer. -/
structure AddPlayer where
  name : String
  player_index : Nat
deriving DecidableEq

/-- Association of a player index with its cycle index (PlayerCycle). -/
structure PlayerCycle where
  player_index : Nat
  cycle_index : Nat
deriving DecidableEq

/-- Payload of InitData. -/
structure InitData where
  player_indices : List Nat
  local_player_index : Nat
  player_cycles : List PlayerCycle
  player_projectiles : List Nat
deriving DecidableEq

/-- Physics snapshot of one cycle (CyclePhysics). Translation, rotation
and velocity are engine-owned quantities, kept opaque as integers. -/
structure CyclePhysics where
  cycle_index : Nat
  translation : Int
  rotation : Int
  velocity : Int
deriving DecidableEq

/-- Payload of Update (UpdatePhysics). -/
structure UpdatePhysics where
  cycle_physics : List CyclePhysics
deriving DecidableEq

/-- Server-to-client wire messages (ServerMessage). Debug shapes are
engine-owned drawing payloads, kept opaque as naturals. -/
inductive ServerMessage
  | addPlayer (ap : AddPlayer)
  | initData (d : InitData)
  | spawnCycle (pc : PlayerCycle)
  | join (player_index : Nat)
  | observe (player_index : Nat)
  | removePlayer (player_index : Nat)
  | update (up : UpdatePhysics) (debug_texts : List String) (debug_shapes : List Nat)
deriving DecidableEq

/-! ## The wire codec, modelled from the spec

The codec lives in the missing common/net module.  Modelled from the
spec: serialization is a deterministic, self-delimiting (length
prefixed) byte encoding of a ServerMessage. -/

/-- Modelled from the spec: encoding of one natural. -/
def encodeNat (n : Nat) : List Nat := [n]

/-- Modelled from the spec: encoding of one integer (sign then magnitude). -/
def encodeInt : Int → List Nat
  | Int.ofNat n => [0, n]
  | Int.negSucc n => [1, n]

/-- Modelled from the spec: length-prefixed encoding of a string. -/
def encodeString (s : String) : List Nat :=
  s.length :: (s.data.map Char.toNat)

/-- Modelled from the spec: length-prefixed encoding of a list. -/
def encodeListNat : List Nat → List Nat
  | xs => xs.length :: xs

/-- Modelled from the spec: encoding of a player-cycle association. -/
def encodePlayerCycle (pc : PlayerCycle) : List Nat :=
  encodeNat pc.player_index ++ encodeNat pc.cycle_index

/-- Modelled from the spec: encoding of one physics snapshot entry. -/
def encodeCyclePhysics (cp : CyclePhysics) : List Nat :=
  encodeNat cp.cycle_index ++ encodeInt cp.translation ++
    encodeInt cp.rotation ++ encodeInt cp.velocity

/-- Body of encodeSeq: concatenation of the element encodings. -/
def encodeSeqBody (f : α → List Nat) : List α → List Nat
  | [] => []
  | x :: xs => f x ++ encodeSeqBody f xs

/-- Modelled from the spec: concatenated encodings of a list of
elements, prefixed with the element count. -/
def encodeSeq (f : α → List Nat) : List α → List Nat
  | xs => xs.length :: encodeSeqBody f xs

/-- Modelled from the spec: tag byte followed by the field encodings. -/
def messagePayload : ServerMessage → List Nat
  | ServerMessage.addPlayer ap =>
      0 :: (encodeString ap.name ++ encodeNat ap.player_index)
  | ServerMessage.initData d =>
      1 :: (encodeListNat d.player_indices ++ encodeNat d.local_player_index ++
        encodeSeq encodePlayerCycle d.player_cycles ++
        encodeListNat d.player_projectiles)
  | ServerMessage.spawnCycle pc => 2 :: encodePlayerCycle pc
  | ServerMessage.join player_index => 3 :: encodeNat player_index
  | ServerMessage.observe player_index => 4 :: encodeNat player_index
  | ServerMessage.removePlayer player_index => 5 :: encodeNat player_index
  | ServerMessage.update up debug_texts debug_shapes =>
      6 :: (encodeSeq encodeCyclePhysics up.cycle_physics ++
        encodeSeq encodeString debug_texts ++ encodeListNat debug_shapes)

/-- Modelled from the spec: net::serialize, a deterministic and
self-delimiting framing of one server message. -/
def serialize (m : ServerMessage) : List Nat :=
  let p := messagePayload m
  p.length :: p

/-! ## Generational pools, index-only projection

The engine pool type used for players, cycles and remote clients:
spawn fills the first free slot (or appends), free empties a slot and
panics on a dead handle, indexing panics on a dead handle, iteration
visits live slots in index order. -/

/-- An engine object pool: a list of optional slots, handle = index. -/
structure Pool (α : Type) where
  slots : List (Option α)
deriving DecidableEq

/-- The empty pool (Pool::new). -/
def Pool.newPool : Pool α := ⟨[]⟩

/-- Helper of get: lookup in a slot list. -/
def getAux : List (Option α) → Nat → Option α
  | [], _ => none
  | s :: _, 0 => s
  | _ :: rest, i + 1 => getAux rest i

/-- Lookup by handle; none models the Rust panic on a dead handle. -/
def Pool.get (p : Pool α) (i : Nat) : Option α :=
  getAux p.slots i

/-- Helper of spawn: fill the first free slot, else append. -/
def spawnAux (a : α) : List (Option α) → List (Option α) × Nat
  | [] => ([some a], 0)
  | none :: rest => (some a :: rest, 0)
  | some b :: rest =>
      let r := spawnAux a rest
      (some b :: r.1, r.2 + 1)

/-- Spawn an object (Pool::spawn): first free slot, returns its handle. -/
def Pool.spawn (p : Pool α) (a : α) : Pool α × Nat :=
  let r := spawnAux a p.slots
  (⟨r.1⟩, r.2)

/-- Free a handle (Pool::free); none models the Rust panic when the
handle is already dead. Returns the removed object. -/
def Pool.free (p : Pool α) (i : Nat) : Option (Pool α × α) :=
  match p.get i with
  | some a => some (⟨p.slots.set i none⟩, a)
  | none => none

/-- Overwrite a live slot; none models the Rust panic on a dead handle. -/
def Pool.setAt (p : Pool α) (i : Nat) (a : α) : Option (Pool α) :=
  match p.get i with
  | some _ => some ⟨p.slots.set i (some a)⟩
  | none => none

/-- Map a function over every live slot. -/
def Pool.mapPool (f : α → α) (p : Pool α) : Pool α :=
  ⟨p.slots.map (fun s => s.map f)⟩

/-- Helper of pairs: live entries of a slot list starting at index i. -/
def pairsAux : List (Option α) → Nat → List (Nat × α)
  | [], _ => []
  | none :: rest, i => pairsAux rest (i + 1)
  | some a :: rest, i => (i, a) :: pairsAux rest (i + 1)

/-- Live entries with their handles in index order (Pool::pair_iter). -/
def Pool.pairs (p : Pool α) : List (Nat × α) :=
  pairsAux p.slots 0

/-- Number of live entries. -/
def Pool.liveCount (p : Pool α) : Nat :=
  p.pairs.length

/-! ## Authoritative game state and the client registry -/

/-- The authoritative game state (common::GameState): players, cycles,
the fixed-step clock. The clock is modelled with exact rationals in
place of the f32 of the source. next_body counts engine bodies handed
out by the scene. -/
structure GameState where
  players : Pool Player
  cycles : Pool Cycle
  game_time : Rat
  frame_number : Nat
  next_body : Nat
deriving DecidableEq

/-- Modelled from the spec: GameState::spawn_cycle is in the missing
common module; the spec says the simulation collaborator spawns a
vehicle for the given player and the new cycle is associated to it by
the player handle. Returns the new cycle handle. -/
def GameState.spawn_cycle (gs : GameState) (player_handle : Nat) :
    GameState × Nat :=
  let r := gs.cycles.spawn { player_handle := player_handle, body_handle := gs.next_body }
  ({ gs with cycles := r.1, next_body := gs.next_body + 1 }, r.2)

/-- Modelled from the spec: GameState::free_player is in the missing
common module; the spec says freeing a player removes its Cycle from
the simulation and releases the Player. none models the panic on a
dead player handle. -/
def GameState.free_player (gs : GameState) (player_handle : Nat) :
    Option GameState :=
  match gs.players.free player_handle with
  | some r =>
      some { gs with
        players := r.1,
        cycles := ⟨gs.cycles.slots.map (fun s =>
          s.bind (fun cy =>
            if cy.player_handle = player_handle then none else some cy))⟩ }
  | none => none

/-- A connected remote client (RemoteClient): the player handle it
controls plus the modelled transport state: the batch the next
receive_cm call returns with its closed flag, and the outcomes of the
successive sends to this client (exhausted list: sends succeed). -/
structure RemoteClient where
  player_handle : Nat
  pendingReceive : List ClientMessage
  closedFlag : Bool
  sendOutcomes : List Bool
deriving DecidableEq

/-- Pop the outcome of one send to this client. -/
def RemoteClient.sendOne (c : RemoteClient) : Bool × RemoteClient :=
  match c.sendOutcomes with
  | [] => (true, c)
  | ok :: rest => (ok, { c with sendOutcomes := rest })

/-- The whole dedicated server (ServerGame). The debug text and shape
buffers are the process-wide DEBUG_TEXTS and DEBUG_SHAPES of debug.rs,
threaded explicitly. -/
structure ServerGame where
  gs : GameState
  clients : Pool RemoteClient
  debug_texts : List String
  debug_shapes : List Nat
deriving DecidableEq

/-- Push one debug text (dbg_textf of debug.rs appends to DEBUG_TEXTS). -/
def dbgText (sg : ServerGame) (s : String) : ServerGame :=
  { sg with debug_texts := sg.debug_texts ++ [s] }

/-- Push one debug shape (debug.rs appends to DEBUG_SHAPES). -/
def dbgShape (sg : ServerGame) (sh : Nat) : ServerGame :=
  { sg with debug_shapes := sg.debug_shapes ++ [sh] }

/-- One attempted send, as recorded by the model: destination client
handle, the logical message, the bytes put on the wire, the outcome. -/
structure SendEvent where
  dest : Nat
  msg : ServerMessage
  bytes : List Nat
  ok : Bool
deriving DecidableEq

/-- Destination selector of network_send (SendDest). -/
inductive SendDest
  | one (h : Nat)
  | all
deriving DecidableEq

/-- Fan-out helper of network_send with SendDest::All: walk the client
slots in index order, attempt one send per live client, record the
events and collect the handles whose send failed. Returns the updated
slots, the events and the failed handles. -/
def fanoutAux (msg : ServerMessage) (bytes : List Nat) :
    List (Option RemoteClient) → Nat →
    List (Option RemoteClient) × List SendEvent × List Nat
  | [], _ => ([], [], [])
  | none :: rest, i =>
      let r := fanoutAux msg bytes rest (i + 1)
      (none :: r.1, r.2)
  | some c :: rest, i =>
      let s := c.sendOne
      let r := fanoutAux msg bytes rest (i + 1)
      (some s.2 :: r.1,
        ⟨i, msg, bytes, s.1⟩ :: r.2.1,
        if s.1 then r.2.2 else i :: r.2.2)

mutual

/-- ServerGame::network_send. Serializes the message once, attempts the
sends chosen by dest, then disconnects every client whose send failed.
none models a panic (in particular freeing an already-freed client in
a disconnect cascade). The fuel argument only makes the mutual
recursion through disconnect structural; it is irrelevant whenever it
covers the depth of the disconnect cascade. -/
def networkSendF : Nat → ServerGame → ServerMessage → SendDest →
    Option (ServerGame × List SendEvent)
  | 0, _, _, _ => none
  | fuel + 1, sg, msg, dest =>
    let network_message := serialize msg
    match dest with
    | SendDest.one h =>
        match sg.clients.get h with
        | none => none
        | some c =>
            let s := c.sendOne
            match sg.clients.setAt h s.2 with
            | none => none
            | some clients1 =>
                let ev : SendEvent := ⟨h, msg, network_message, s.1⟩
                let sg1 := { sg with clients := clients1 }
                if s.1 then some (sg1, [ev])
                else
                  match disconnectListF fuel sg1 [h] with
                  | none => none
                  | some r => some (r.1, ev :: r.2)
    | SendDest.all =>
        let r := fanoutAux msg network_message sg.clients.slots 0
        let sg1 := { sg with clients := ⟨r.1⟩ }
        match disconnectListF fuel sg1 r.2.2 with
        | none => none
        | some d => some (d.1, r.2.1 ++ d.2)

/-- The disconnect loop at the end of network_send: disconnect each
collected handle in order. -/
def disconnectListF : Nat → ServerGame → List Nat →
    Option (ServerGame × List SendEvent)
  | _, sg, [] => some (sg, [])
  | 0, _, _ :: _ => none
  | fuel + 1, sg, h :: rest =>
      match disconnectF fuel sg h with
      | none => none
      | some r =>
          match disconnectListF fuel r.1 rest with
          | none => none
          | some r2 => some (r2.1, r.2 ++ r2.2)

/-- ServerGame::disconnect: free the client from the registry (none
models the panic when the handle is already dead), free its player
(removing its cycle), then broadcast RemovePlayer to the remaining
clients. -/
def disconnectF : Nat → ServerGame → Nat → Option (ServerGame × List SendEvent)
  | 0, _, _ => none
  | fuel + 1, sg, client_handle =>
      match sg.clients.free client_handle with
      | none => none
      | some r =>
          let client := r.2
          match sg.gs.free_player client.player_handle with
          | none => none
          | some gs1 =>
              let sg1 : ServerGame := { sg with gs := gs1, clients := r.1 }
              let message := ServerMessage.removePlayer client.player_handle
              networkSendF fuel sg1 message SendDest.all

end

/-! ## The receive phase (ServerGame::sys_receive) -/

/-- Effect of one received client message on the game state, as in the
match of sys_receive: Input overwrites the player's latest input, Chat
is logged only, Join and Observe set the player state and queue a
broadcast. none models the panic of indexing a dead player handle. -/
def processMessage (gs : GameState) (player_handle : Nat) :
    ClientMessage → Option (GameState × List ServerMessage)
  | ClientMessage.input i =>
      match gs.players.get player_handle with
      | none => none
      | some p =>
          match gs.players.setAt player_handle { p with input := i } with
          | none => none
          | some players1 => some ({ gs with players := players1 }, [])
  | ClientMessage.chat _ => some (gs, [])
  | ClientMessage.join =>
      match gs.players.get player_handle with
      | none => none
      | some p =>
          match gs.players.setAt player_handle { p with ps := PlayerState.playing } with
          | none => none
          | some players1 =>
              some ({ gs with players := players1 },
                [ServerMessage.join player_handle])
  | ClientMessage.observe =>
      match gs.players.get player_handle with
      | none => none
      | some p =>
          match gs.players.setAt player_handle { p with ps := PlayerState.observing } with
          | none => none
          | some players1 =>
              some ({ gs with players := players1 },
                [ServerMessage.observe player_handle])

/-- Drain the batch of one client in order, accumulating the queued
broadcasts. -/
def processClientMsgs (gs : GameState) (player_handle : Nat) :
    List ClientMessage → Option (GameState × List ServerMessage)
  | [] => some (gs, [])
  | m :: rest =>
      match processMessage gs player_handle m with
      | none => none
      | some r =>
          match processClientMsgs r.1 player_handle rest with
          | none => none
          | some r2 => some (r2.1, r.2 ++ r2.2)

/-- The scan loop of sys_receive over the live clients: drain each
client's batch, accumulate messages_to_all in arrival order and the
handles whose stream reported closed in scan order. -/
def receivePhase (gs : GameState) :
    List (Nat × RemoteClient) →
    Option (GameState × List ServerMessage × List Nat)
  | [] => some (gs, [], [])
  | (h, c) :: rest =>
      match processClientMsgs gs c.player_handle c.pendingReceive with
      | none => none
      | some r =>
          match receivePhase r.1 rest with
          | none => none
          | some r2 =>
              some (r2.1, r.2 ++ r2.2.1,
                (if c.closedFlag then [h] else []) ++ r2.2.2)

/-- The send loop over messages_to_all at the end of sys_receive: each
accumulated message is broadcast to all clients. -/
def broadcastListF (fuel : Nat) (sg : ServerGame) :
    List ServerMessage → Option (ServerGame × List SendEvent)
  | [] => some (sg, [])
  | m :: rest =>
      match networkSendF fuel sg m SendDest.all with
      | none => none
      | some r =>
          match broadcastListF fuel r.1 rest with
          | none => none
          | some r2 => some (r2.1, r.2 ++ r2.2)

/-- A remote client record with its inbound batch drained: this is what
one receive_cm call leaves behind for the tick. -/
def clearRC (c : RemoteClient) : RemoteClient :=
  { c with pendingReceive := [] }

/-- ServerGame::sys_receive: drain every live client (messages received
before a close are still processed), then disconnect the clients whose
stream closed, then broadcast the accumulated messages. Draining
empties each client's inbound batch. -/
def sysReceiveF (fuel : Nat) (sg : ServerGame) :
    Option (ServerGame × List SendEvent) :=
  match receivePhase sg.gs sg.clients.pairs with
  | none => none
  | some r =>
      let gs1 := r.1
      let messages_to_all := r.2.1
      let disconnected := r.2.2
      let clients1 := Pool.mapPool clearRC sg.clients
      let sg1 : ServerGame := { sg with gs := gs1, clients := clients1 }
      match disconnectListF fuel sg1 disconnected with
      | none => none
      | some r2 =>
          match broadcastListF fuel r2.1 messages_to_all with
          | none => none
          | some r3 => some (r3.1, r2.2 ++ r3.2)

/-! ## Accepting connections (ServerGame::accept_new_connections) -/

/-- A pending inbound connection, carrying the modelled transport state
the resulting RemoteClient will observe this tick. -/
structure IncomingConn where
  pendingReceive : List ClientMessage
  closedFlag : Bool
  sendOutcomes : List Bool
deriving DecidableEq

/-- How the listener ends the accept loop this tick: a would-block
signal (normal termination) or a fatal listener error (panic). -/
inductive AcceptEnd
  | wouldBlock
  | fatalError
deriving DecidableEq

/-- RemoteClient::new. -/
def RemoteClient.newClient (conn : IncomingConn) (player_handle : Nat) :
    RemoteClient :=
  { player_handle := player_handle,
    pendingReceive := conn.pendingReceive,
    closedFlag := conn.closedFlag,
    sendOutcomes := conn.sendOutcomes }

/-- ServerGame::send_init: snapshot the full player roster, the local
player index and the existing cycle associations, and send them
privately to the one new client. -/
def sendInitF (fuel : Nat) (sg : ServerGame) (client_handle : Nat) :
    Option (ServerGame × List SendEvent) :=
  let player_indices := sg.gs.players.pairs.map (fun pc => pc.1)
  match sg.clients.get client_handle with
  | none => none
  | some c =>
      let local_player_index := c.player_handle
      let player_cycles := sg.gs.cycles.pairs.map
        (fun hc => PlayerCycle.mk hc.2.player_handle hc.1)
      let init_data : InitData :=
        ⟨player_indices, local_player_index, player_cycles, []⟩
      networkSendF fuel sg (ServerMessage.initData init_data)
        (SendDest.one client_handle)

/-- ServerGame::accept_new_connections: drain the pending connections;
for each one in order spawn the Player, broadcast AddPlayer to the
existing clients, spawn the RemoteClient, send it InitData privately,
spawn its Cycle and broadcast SpawnCycle to all clients. The loop ends
at a would-block signal; a fatal listener error panics (none). -/
def acceptNewConnectionsF (fuel : Nat) (sg : ServerGame) :
    List IncomingConn → AcceptEnd → Option (ServerGame × List SendEvent)
  | [], AcceptEnd.wouldBlock => some (sg, [])
  | [], AcceptEnd.fatalError => none
  | conn :: rest, e =>
      let player := Player.new
      let rp := sg.gs.players.spawn player
      let player_handle := rp.2
      let sgA : ServerGame := { sg with gs := { sg.gs with players := rp.1 } }
      let add_player : AddPlayer := ⟨"Player", player_handle⟩
      match networkSendF fuel sgA (ServerMessage.addPlayer add_player)
          SendDest.all with
      | none => none
      | some r1 =>
          let client := RemoteClient.newClient conn player_handle
          let rc := r1.1.clients.spawn client
          let client_handle := rc.2
          let sgB : ServerGame := { r1.1 with clients := rc.1 }
          match sendInitF fuel sgB client_handle with
          | none => none
          | some r2 =>
              let rcy := r2.1.gs.spawn_cycle player_handle
              let cycle_handle := rcy.2
              let sgC : ServerGame := { r2.1 with gs := rcy.1 }
              let player_cycle : PlayerCycle := ⟨player_handle, cycle_handle⟩
              match networkSendF fuel sgC
                  (ServerMessage.spawnCycle player_cycle) SendDest.all with
              | none => none
              | some r3 =>
                  match acceptNewConnectionsF fuel r3.1 rest e with
                  | none => none
                  | some r4 =>
                      some (r4.1, r1.2 ++ r2.2 ++ r3.2 ++ r4.2)

/-! ## The per-tick update broadcast (ServerGame::sys_send_update) -/

/-- The engine scene as seen by sys_send_update: the rigid body data of
each cycle, keyed by its body handle. Engine-owned, hence opaque. -/
structure CycleBody where
  translation : Int
  rotation : Int
  velocity : Int

/-- The per-tick physics snapshot of sys_send_update: one CyclePhysics
entry per live cycle, in handle order, reading the engine body data. -/
def cycleSnapshot (scene : Nat → CycleBody) (cycles : Pool Cycle) : List CyclePhysics :=
  cycles.pairs.map (fun hc =>
    CyclePhysics.mk hc.1 (scene hc.2.body_handle).translation
      (scene hc.2.body_handle).rotation (scene hc.2.body_handle).velocity)

/-- ServerGame::sys_send_update: snapshot every live cycle's physics,
drain and clear both debug buffers, package one Update message and
broadcast it to all clients. -/
def sysSendUpdateF (fuel : Nat) (scene : Nat → CycleBody) (sg : ServerGame) :
    Option (ServerGame × List SendEvent) :=
  let cycle_physics := cycleSnapshot scene sg.gs.cycles
  let update_physics : UpdatePhysics := ⟨cycle_physics⟩
  let debug_texts := sg.debug_texts
  let debug_shapes := sg.debug_shapes
  let sg1 : ServerGame := { sg with debug_texts := [], debug_shapes := [] }
  networkSendF fuel sg1
    (ServerMessage.update update_physics debug_texts debug_shapes)
    SendDest.all

/-! ## The fixed-timestep loop (ServerGame::update) -/

/-- The fixed timestep of the simulation, 1/60 s. -/
def dt : Rat := 1 / 60

/-- The while loop of ServerGame::update over an abstract tick body:
while game_time + dt is below the target, add exactly dt to game_time,
add exactly 1 to frame_number and run the body once (the body of the
source runs tick_begin_frame, the physics step and sys_send_update;
none of these touches the clock). The body receives the new frame
number. -/
def updateLoop {σ : Type} (tickFn : Nat → σ → σ) (game_time_target : Rat)
    (game_time : Rat) (frame_number : Nat) (s : σ) : Rat × Nat × σ :=
  if game_time + dt < game_time_target then
    updateLoop tickFn game_time_target (game_time + dt) (frame_number + 1)
      (tickFn (frame_number + 1) s)
  else
    (game_time, frame_number, s)
termination_by (⌈(game_time_target - game_time) / dt⌉).toNat
decreasing_by
  have hdt : (0 : Rat) < dt := by norm_num [dt]
  have h1 : (1 : Rat) < (game_time_target - game_time) / dt := by
    rw [lt_div_iff₀ hdt]
    linarith
  have hceil : (1 : Int) < ⌈(game_time_target - game_time) / dt⌉ := by
    exact_mod_cast lt_of_lt_of_le h1 (Int.le_ceil _)
  have hstep : game_time_target - (game_time + dt) =
      (game_time_target - game_time) - dt := by ring
  have hdiv : (game_time_target - (game_time + dt)) / dt =
      (game_time_target - game_time) / dt - 1 := by
    rw [hstep, sub_div, div_self (ne_of_gt hdt)]
  rw [hdiv, Int.ceil_sub_one]
  omega

/-! ## Derived notions used by the statements -/

/-- One successful attempted send of msg to client d, as recorded. -/
def mkEv (d : Nat) (msg : ServerMessage) : SendEvent :=
  ⟨d, msg, serialize msg, true⟩

/-- All sends to every connected client succeed (every modelled outcome
list is exhausted). -/
def AllOk (sg : ServerGame) : Prop :=
  ∀ pc ∈ sg.clients.pairs, pc.2.sendOutcomes = []

/-- The broadcasts a single client's batch queues, in arrival order:
one Join or Observe server message per Join or Observe client message. -/
def clientBroadcasts (player_handle : Nat) : List ClientMessage → List ServerMessage
  | [] => []
  | ClientMessage.join :: rest =>
      ServerMessage.join player_handle :: clientBroadcasts player_handle rest
  | ClientMessage.observe :: rest =>
      ServerMessage.observe player_handle :: clientBroadcasts player_handle rest
  | _ :: rest => clientBroadcasts player_handle rest

/-- All broadcasts queued during the receive scan, in scan order. -/
def queuedBroadcasts : List (Nat × RemoteClient) → List ServerMessage
  | [] => []
  | pc :: rest =>
      clientBroadcasts pc.2.player_handle pc.2.pendingReceive ++ queuedBroadcasts rest

/-- Expected trace of the disconnect loop when every send succeeds:
for each disconnected client in order, one RemovePlayer broadcast
carrying its player index, delivered to exactly the clients remaining
in the registry at that moment (the live pairs minus every client
already removed, including this one). -/
def removalTrace : List (Nat × RemoteClient) → List (Nat × RemoteClient) → List SendEvent
  | _, [] => []
  | prs, hc :: rest =>
      let survivors := prs.filter (fun pc => pc.1 ≠ hc.1)
      survivors.map (fun pc => mkEv pc.1 (ServerMessage.removePlayer hc.2.player_handle))
        ++ removalTrace survivors rest

/-- Expected trace of broadcasting a message list to a fixed registry
when every send succeeds: the messages go out in order, each one to
every live client in index order. -/
def allBroadcastTrace (prs : List (Nat × RemoteClient)) : List ServerMessage → List SendEvent
  | [] => []
  | m :: rest => prs.map (fun pc => mkEv pc.1 m) ++ allBroadcastTrace prs rest

/-- The live client entries as the disconnect phase of sys_receive sees
them: every inbound batch has been drained. -/
def clearedPairs (sg : ServerGame) : List (Nat × RemoteClient) :=
  sg.clients.pairs.map (fun pc => (pc.1, clearRC pc.2))

/-- The clients queued for disconnection during the receive scan, in
scan order: exactly those whose stream reported closed. -/
def closedPairs (sg : ServerGame) : List (Nat × RemoteClient) :=
  (clearedPairs sg).filter (fun pc => pc.2.closedFlag)

/-- A message queued by the receive scan is a Join or an Observe. -/
def isJoinOrObserve : ServerMessage → Prop
  | ServerMessage.join _ => True
  | ServerMessage.observe _ => True
  | _ => False

/-- Iterated tick bodies: run the body for frames fn+1, ..., fn+n. -/
def iterTicks {σ : Type} (tickFn : Nat → σ → σ) : Nat → Nat → σ → σ
  | _, 0, s => s
  | fn, n + 1, s => iterTicks tickFn (fn + 1) n (tickFn (fn + 1) s)

/-- The handle of the player spawned for the next accepted connection. -/
def acceptPH (sg : ServerGame) : Nat := (sg.gs.players.spawn Player.new).2

/-- The handle of the RemoteClient spawned for the next accepted
connection. -/
def acceptCH (sg : ServerGame) (conn : IncomingConn) : Nat :=
  (sg.clients.spawn (RemoteClient.newClient conn (acceptPH sg))).2

/-- The handle of the Cycle spawned for the next accepted connection. -/
def acceptCYH (sg : ServerGame) : Nat :=
  (({ sg.gs with players := (sg.gs.players.spawn Player.new).1 } : GameState).spawn_cycle
    (acceptPH sg)).2

/-- The server state one accept iteration leaves behind when every send
succeeds: the new Player, RemoteClient and Cycle are spawned; nothing
else changes. -/
def acceptOneState (sg : ServerGame) (conn : IncomingConn) : ServerGame :=
  let rp := sg.gs.players.spawn Player.new
  let player_handle := rp.2
  let rc := sg.clients.spawn (RemoteClient.newClient conn player_handle)
  let gsA : GameState := { sg.gs with players := rp.1 }
  let rcy := gsA.spawn_cycle player_handle
  { sg with gs := rcy.1, clients := rc.1 }

/-- The sends one accept iteration performs when every send succeeds,
in order: AddPlayer to every pre-existing client (the new client is not
yet registered), the private InitData to the new client alone (roster
already contains the new player, cycle associations do not yet), then
SpawnCycle to every client including the new one. -/
def acceptOneTrace (sg : ServerGame) (conn : IncomingConn) : List SendEvent :=
  let rp := sg.gs.players.spawn Player.new
  let player_handle := rp.2
  let rc := sg.clients.spawn (RemoteClient.newClient conn player_handle)
  let client_handle := rc.2
  let gsA : GameState := { sg.gs with players := rp.1 }
  let rcy := gsA.spawn_cycle player_handle
  let cycle_handle := rcy.2
  (sg.clients.pairs.map (fun pc =>
      mkEv pc.1 (ServerMessage.addPlayer ⟨"Player", player_handle⟩)))
    ++ [mkEv client_handle (ServerMessage.initData
        ⟨rp.1.pairs.map Prod.fst, player_handle,
          sg.gs.cycles.pairs.map (fun hc => PlayerCycle.mk hc.2.player_handle hc.1), []⟩)]
    ++ (rc.1.pairs.map (fun pc =>
      mkEv pc.1 (ServerMessage.spawnCycle ⟨player_handle, cycle_handle⟩)))

/-- Emit a list of debug texts in order (iterated dbg_textf). -/
def emitTexts (sg : ServerGame) : List String → ServerGame
  | [] => sg
  | t :: rest => emitTexts (dbgText sg t) rest

/-- Emit a list of debug shapes in order. -/
def emitShapes (sg : ServerGame) : List Nat → ServerGame
  | [] => sg
  | sh :: rest => emitShapes (dbgShape sg sh) rest

/-- Whether a recorded send carries an InitData message. -/
def isInitDataEvent (e : SendEvent) : Bool :=
  match e.msg with
  | ServerMessage.initData _ => true
  | _ => false

/-! ## Concrete scenario states -/

/-- An observing player with neutral input. -/
def obsPlayer : Player := ⟨PlayerState.observing, 0⟩

/-- Scenario of claim C1: client A (handle 0, player 0) is healthy;
client B (handle 1, player 1) sends Join and its stream closes in the
same tick. B owns cycle 0. -/
def c1state : ServerGame :=
  { gs := { players := ⟨[some obsPlayer, some obsPlayer]⟩,
            cycles := ⟨[some ⟨1, 0⟩]⟩, game_time := 0,
            frame_number := 0, next_body := 1 },
    clients := ⟨[some ⟨0, [], false, []⟩,
                 some ⟨1, [ClientMessage.join], true, []⟩]⟩,
    debug_texts := [], debug_shapes := [] }

/-- Scenario of claim C2: both clients' streams close in the same tick,
and the RemovePlayer send to client 1 (still connected while client 0
is being disconnected) fails. -/
def c2state : ServerGame :=
  { gs := { players := ⟨[some obsPlayer, some obsPlayer]⟩,
            cycles := ⟨[some ⟨0, 0⟩, some ⟨1, 1⟩]⟩, game_time := 0,
            frame_number := 0, next_body := 2 },
    clients := ⟨[some ⟨0, [], true, []⟩,
                 some ⟨1, [], true, [false]⟩]⟩,
    debug_texts := [], debug_shapes := [] }

/-- The C2 scenario with the failing send repaired: identical to
`c2state` except that the RemovePlayer send to client 1 succeeds. -/
def c2stateOk : ServerGame :=
  { gs := { players := ⟨[some obsPlayer, some obsPlayer]⟩,
            cycles := ⟨[some ⟨0, 0⟩, some ⟨1, 1⟩]⟩, game_time := 0,
            frame_number := 0, next_body := 2 },
    clients := ⟨[some ⟨0, [], true, []⟩,
                 some ⟨1, [], true, []⟩]⟩,
    debug_texts := [], debug_shapes := [] }

/-- A fresh server: no players, no cycles, no clients. -/
def freshServer : ServerGame :=
  { gs := { players := Pool.newPool, cycles := Pool.newPool, game_time := 0,
            frame_number := 0, next_body := 0 },
    clients := Pool.newPool, debug_texts := [], debug_shapes := [] }

/-- A quiet pending connection: nothing received, stream open, all
sends to it succeed. -/
def conn0 : IncomingConn := ⟨[], false, []⟩

/-- Scenario of claims C6 and C10: two clients; the next send to client
0 fails, sends to client 1 succeed. -/
def c6state : ServerGame :=
  { gs := { players := ⟨[some obsPlayer, some obsPlayer]⟩,
            cycles := ⟨[some ⟨0, 0⟩, some ⟨1, 1⟩]⟩, game_time := 0,
            frame_number := 0, next_body := 2 },
    clients := ⟨[some ⟨0, [], false, [false]⟩,
                 some ⟨1, [], false, []⟩]⟩,
    debug_texts := [], debug_shapes := [] }

/-- The state the broadcast of claim C6 leaves behind: client 0 was
disconnected after its failed send, its player and cycle freed. -/
def c6result : ServerGame :=
  { gs := { players := ⟨[none, some obsPlayer]⟩,
            cycles := ⟨[none, some ⟨1, 1⟩]⟩, game_time := 0,
            frame_number := 0, next_body := 2 },
    clients := ⟨[none, some ⟨1, [], false, []⟩]⟩,
    debug_texts := [], debug_shapes := [] }

/-- The events the broadcast of claim C6 records: one attempt per
client in order (the first failing), then the RemovePlayer broadcast of
the triggered disconnect. -/
def c6events : List SendEvent :=
  [⟨0, ServerMessage.join 0, serialize (ServerMessage.join 0), false⟩,
   ⟨1, ServerMessage.join 0, serialize (ServerMessage.join 0), true⟩,
   ⟨1, ServerMessage.removePlayer 0, serialize (ServerMessage.removePlayer 0), true⟩]

/-- Scenario of claim C9: one client, one cycle, two accumulated debug
texts and one accumulated debug shape. -/
def c9state : ServerGame :=
  { gs := { players := ⟨[some obsPlayer]⟩,
            cycles := ⟨[some ⟨0, 0⟩]⟩, game_time := 0,
            frame_number := 0, next_body := 1 },
    clients := ⟨[some ⟨0, [], false, []⟩]⟩,
    debug_texts := ["a", "b"], debug_shapes := [7] }

/-- Engine bodies of the C9 scenario. -/
def c9scene : Nat → CycleBody := fun _ => ⟨1, 2, 3⟩

/-- Scenario of claim C7: a single client (handle 0, player 0) that
sends Join followed by Observe in one tick. -/
def c7state : ServerGame :=
  { gs := { players := ⟨[some obsPlayer]⟩, cycles := ⟨[some ⟨0, 0⟩]⟩,
            game_time := 0, frame_number := 0, next_body := 1 },
    clients := ⟨[some ⟨0, [ClientMessage.join, ClientMessage.observe], false, []⟩]⟩,
    debug_texts := [], debug_shapes := [] }

/-! ## Pool lemmas -/

theorem pairsAux_ge {α : Type} :
    ∀ (slots : List (Option α)) (i : Nat), ∀ pc ∈ pairsAux slots i, i ≤ pc.1 := by
  intro slots
  induction slots with
  | nil => intro i pc h; simp [pairsAux] at h
  | cons s rest ih =>
      intro i pc h
      match s with
      | none =>
          have := ih (i + 1) pc (by simpa [pairsAux] using h)
          omega
      | some a =>
          simp only [pairsAux, List.mem_cons] at h
          rcases h with h | h
          · subst h; exact Nat.le_refl i
          · have := ih (i + 1) pc h
            omega

theorem getAux_iff_mem_pairsAux {α : Type} :
    ∀ (slots : List (Option α)) (i j : Nat) (a : α),
      getAux slots j = some a ↔ (i + j, a) ∈ pairsAux slots i := by
  intro slots
  induction slots with
  | nil => intro i j a; simp [getAux, pairsAux]
  | cons s rest ih =>
      intro i j a
      match j with
      | 0 =>
          match s with
          | none =>
              simp only [getAux, pairsAux, Nat.add_zero]
              constructor
              · intro h; cases h
              · intro h
                have := pairsAux_ge rest (i + 1) _ h
                omega
          | some b =>
              simp only [getAux, pairsAux, Nat.add_zero, List.mem_cons]
              constructor
              · intro h; left
                cases h
                rfl
              · intro h
                rcases h with h | h
                · cases h; rfl
                · have := pairsAux_ge rest (i + 1) _ h
                  simp at this
      | j' + 1 =>
          match s with
          | none =>
              simp only [getAux, pairsAux]
              have := ih (i + 1) j' a
              rw [show i + (j' + 1) = (i + 1) + j' by omega] at *
              exact this
          | some b =>
              simp only [getAux, pairsAux, List.mem_cons]
              have := ih (i + 1) j' a
              rw [show i + (j' + 1) = (i + 1) + j' by omega]
              rw [this]
              constructor
              · intro h; exact Or.inr h
              · intro h
                rcases h with h | h
                · exfalso
                  have : i + 1 + j' = i := by
                    have := congrArg Prod.fst h
                    simpa using this
                  omega
                · exact h

theorem Pool.get_iff_mem_pairs {α : Type} (p : Pool α) (h : Nat) (a : α) :
    p.get h = some a ↔ (h, a) ∈ p.pairs := by
  have := getAux_iff_mem_pairsAux p.slots 0 h a
  simpa [Pool.get, Pool.pairs] using this

theorem pairsAux_fst_nodup {α : Type} :
    ∀ (slots : List (Option α)) (i : Nat),
      ((pairsAux slots i).map Prod.fst).Nodup := by
  intro slots
  induction slots with
  | nil => intro i; simp [pairsAux]
  | cons s rest ih =>
      intro i
      match s with
      | none => simpa [pairsAux] using ih (i + 1)
      | some a =>
          simp only [pairsAux, List.map_cons, List.nodup_cons]
          refine ⟨?_, ih (i + 1)⟩
          intro hmem
          rcases List.mem_map.mp hmem with ⟨pc, hpc, hfst⟩
          have := pairsAux_ge rest (i + 1) pc hpc
          omega

theorem pairs_fst_nodup {α : Type} (p : Pool α) :
    (p.pairs.map Prod.fst).Nodup :=
  pairsAux_fst_nodup p.slots 0

theorem getAux_set_ne {α : Type} :
    ∀ (slots : List (Option α)) (k j : Nat) (v : Option α), j ≠ k →
      getAux (slots.set k v) j = getAux slots j := by
  intro slots
  induction slots with
  | nil => intro k j v _; simp [getAux]
  | cons s rest ih =>
      intro k j v hne
      match k, j with
      | 0, 0 => exact absurd rfl hne
      | 0, j' + 1 => simp [getAux, List.set]
      | k' + 1, 0 => simp [getAux, List.set]
      | k' + 1, j' + 1 =>
          simp only [List.set, getAux]
          exact ih k' j' v (by omega)

theorem getAux_set_self {α : Type} :
    ∀ (slots : List (Option α)) (k : Nat) (a : α) (v : Option α),
      getAux slots k = some a → getAux (slots.set k v) k = v := by
  intro slots
  induction slots with
  | nil => intro k a v h; simp [getAux] at h
  | cons s rest ih =>
      intro k a v h
      match k with
      | 0 => simp [getAux, List.set]
      | k' + 1 =>
          simp only [List.set, getAux] at *
          exact ih k' a v h

theorem set_getAux_self {α : Type} :
    ∀ (slots : List (Option α)) (k : Nat) (a : α),
      getAux slots k = some a → slots.set k (some a) = slots := by
  intro slots
  induction slots with
  | nil => intro k a h; simp [getAux] at h
  | cons s rest ih =>
      intro k a h
      match k with
      | 0 =>
          simp only [getAux] at h
          simp [List.set, h]
      | k' + 1 =>
          simp only [getAux] at h
          simp [List.set, ih k' a h]

theorem pairsAux_filter_ne_of_lt {α : Type} (slots : List (Option α)) (i k : Nat)
    (hk : k < i) : (pairsAux slots i).filter (fun pc => pc.1 ≠ k) = pairsAux slots i := by
  rw [List.filter_eq_self]
  intro pc hpc
  have := pairsAux_ge slots i pc hpc
  simp only [ne_eq, decide_eq_true_eq]
  omega

theorem pairsAux_set_none {α : Type} :
    ∀ (slots : List (Option α)) (k i : Nat),
      pairsAux (slots.set k none) i =
        (pairsAux slots i).filter (fun pc => pc.1 ≠ i + k) := by
  intro slots
  induction slots with
  | nil => intro k i; simp [pairsAux]
  | cons s rest ih =>
      intro k i
      match k with
      | 0 =>
          match s with
          | none =>
              simp only [List.set, pairsAux, Nat.add_zero]
              exact (pairsAux_filter_ne_of_lt rest (i + 1) i (by omega)).symm
          | some a =>
              simp only [List.set, pairsAux, Nat.add_zero, List.filter_cons]
              rw [pairsAux_filter_ne_of_lt rest (i + 1) i (by omega)]
              simp
      | k' + 1 =>
          match s with
          | none =>
              simp only [List.set, pairsAux]
              rw [ih k' (i + 1), show i + 1 + k' = i + (k' + 1) by omega]
          | some a =>
              simp only [List.set, pairsAux, List.filter_cons]
              rw [ih k' (i + 1), show i + 1 + k' = i + (k' + 1) by omega]
              have hne : i ≠ i + (k' + 1) := by omega
              simp [hne]

theorem spawnAux_get {α : Type} :
    ∀ (slots : List (Option α)) (a : α),
      getAux (spawnAux a slots).1 (spawnAux a slots).2 = some a := by
  intro slots
  induction slots with
  | nil => intro a; simp [spawnAux, getAux]
  | cons s rest ih =>
      intro a
      match s with
      | none => simp [spawnAux, getAux]
      | some b => simpa [spawnAux, getAux] using ih a

theorem spawnAux_fresh {α : Type} :
    ∀ (slots : List (Option α)) (a : α),
      getAux slots (spawnAux a slots).2 = none := by
  intro slots
  induction slots with
  | nil => intro a; simp [spawnAux, getAux]
  | cons s rest ih =>
      intro a
      match s with
      | none => simp [spawnAux, getAux]
      | some b => simpa [spawnAux, getAux] using ih a

theorem mem_pairsAux_spawnAux {α : Type} :
    ∀ (slots : List (Option α)) (a : α) (i : Nat),
      ∀ pc ∈ pairsAux (spawnAux a slots).1 i,
        pc ∈ pairsAux slots i ∨ pc = (i + (spawnAux a slots).2, a) := by
  intro slots
  induction slots with
  | nil =>
      intro a i pc h
      simp only [spawnAux, pairsAux] at h
      simp only [List.mem_cons, List.not_mem_nil, or_false] at h
      right
      simpa using h
  | cons s rest ih =>
      intro a i pc h
      match s with
      | none =>
          simp only [spawnAux, pairsAux, List.mem_cons] at h
          rcases h with h | h
          · right; simpa using h
          · left; simpa [pairsAux] using h
      | some b =>
          simp only [spawnAux, pairsAux, List.mem_cons] at h
          rcases h with h | h
          · left; simp [pairsAux, h]
          · rcases ih a (i + 1) pc h with h2 | h2
            · left; simp [pairsAux, h2]
            · right
              subst h2
              simp only [spawnAux]
              rw [show i + 1 + (spawnAux a rest).2 = i + ((spawnAux a rest).2 + 1) from by omega]

theorem pairsAux_map {α : Type} (f : α → α) :
    ∀ (slots : List (Option α)) (i : Nat),
      pairsAux (slots.map (Option.map f)) i =
        (pairsAux slots i).map (fun pc => (pc.1, f pc.2)) := by
  intro slots
  induction slots with
  | nil => intro i; simp [pairsAux]
  | cons s rest ih =>
      intro i
      match s with
      | none => simpa [pairsAux] using ih (i + 1)
      | some a => simp [pairsAux, ih (i + 1)]

theorem getAux_map_none {α β : Type} (g : Option α → Option β) (hg : g none = none) :
    ∀ (slots : List (Option α)) (i : Nat),
      getAux (slots.map g) i = g (getAux slots i) := by
  intro slots
  induction slots with
  | nil => intro i; simp [getAux, hg]
  | cons s rest ih =>
      intro i
      match i with
      | 0 => simp [getAux]
      | j + 1 => simpa [getAux] using ih j

theorem fanoutAux_events (msg : ServerMessage) (bytes : List Nat) :
    ∀ (slots : List (Option RemoteClient)) (i : Nat),
      (fanoutAux msg bytes slots i).2.1 =
        (pairsAux slots i).map (fun pc => SendEvent.mk pc.1 msg bytes (pc.2.sendOne.1)) := by
  intro slots
  induction slots with
  | nil => intro i; simp [fanoutAux, pairsAux]
  | cons s rest ih =>
      intro i
      match s with
      | none => simpa [fanoutAux, pairsAux] using ih (i + 1)
      | some c => simp [fanoutAux, pairsAux, ih (i + 1)]

theorem fanoutAux_allOk (msg : ServerMessage) (bytes : List Nat) :
    ∀ (slots : List (Option RemoteClient)) (i : Nat),
      (∀ pc ∈ pairsAux slots i, pc.2.sendOutcomes = []) →
      fanoutAux msg bytes slots i =
        (slots, (pairsAux slots i).map (fun pc => SendEvent.mk pc.1 msg bytes true), []) := by
  intro slots
  induction slots with
  | nil => intro i _; simp [fanoutAux, pairsAux]
  | cons s rest ih =>
      intro i hok
      match s with
      | none =>
          have := ih (i + 1) (by
            intro pc hpc
            exact hok pc (by simpa [pairsAux] using hpc))
          simp [fanoutAux, pairsAux, this]
      | some c =>
          have hc : c.sendOutcomes = [] := hok (i, c) (by simp [pairsAux])
          have := ih (i + 1) (by
            intro pc hpc
            exact hok pc (by simp [pairsAux, hpc]))
          simp [fanoutAux, pairsAux, this, RemoteClient.sendOne, hc]

theorem disconnectListF_nil (fuel : Nat) (sg : ServerGame) :
    disconnectListF fuel sg [] = some (sg, []) := by
  cases fuel with
  | zero => rfl
  | succ f => rfl

theorem networkSendF_all_ok (fuel : Nat) (sg : ServerGame) (msg : ServerMessage)
    (hok : AllOk sg) :
    networkSendF (fuel + 1) sg msg SendDest.all =
      some (sg, sg.clients.pairs.map (fun pc => mkEv pc.1 msg)) := by
  unfold networkSendF
  have hfan := fanoutAux_allOk msg (serialize msg) sg.clients.slots 0 hok
  simp only [Pool.pairs] at hfan ⊢
  rw [hfan]
  simp [disconnectListF_nil, mkEv]

theorem networkSendF_one_ok (fuel : Nat) (sg : ServerGame) (msg : ServerMessage)
    (h : Nat) (c : RemoteClient) (hget : sg.clients.get h = some c)
    (hc : c.sendOutcomes = []) :
    networkSendF (fuel + 1) sg msg (SendDest.one h) = some (sg, [mkEv h msg]) := by
  have hset : sg.clients.setAt h c = some sg.clients := by
    simp [Pool.setAt, hget, set_getAux_self sg.clients.slots h c hget]
  unfold networkSendF
  simp [hget, RemoteClient.sendOne, hc, hset, mkEv]

theorem broadcastListF_ok (fuel : Nat) (sg : ServerGame) (hok : AllOk sg) :
    ∀ ms : List ServerMessage,
      broadcastListF (fuel + 1) sg ms =
        some (sg, allBroadcastTrace sg.clients.pairs ms) := by
  intro ms
  induction ms with
  | nil => simp [broadcastListF, allBroadcastTrace]
  | cons m rest ih =>
      rw [broadcastListF, networkSendF_all_ok fuel sg m hok]
      simp [ih, allBroadcastTrace, mkEv]

theorem getAux_set_none_self {α : Type} :
    ∀ (slots : List (Option α)) (k : Nat),
      getAux (slots.set k none) k = (none : Option α) := by
  intro slots
  induction slots with
  | nil => intro k; simp [getAux]
  | cons s rest ih =>
      intro k
      match k with
      | 0 => simp [List.set, getAux]
      | k' + 1 => simpa [List.set, getAux] using ih k'

theorem disconnectF_ok (fuel : Nat) (sg : ServerGame) (h : Nat) (c : RemoteClient)
    (hget : sg.clients.get h = some c)
    (hp : ∃ p, sg.gs.players.get c.player_handle = some p)
    (hok1 : ∀ pc ∈ (Pool.mk (sg.clients.slots.set h none) : Pool RemoteClient).pairs,
      pc.2.sendOutcomes = []) :
    disconnectF (fuel + 2) sg h =
      some ({ sg with
          gs := { sg.gs with
            players := ⟨sg.gs.players.slots.set c.player_handle none⟩,
            cycles := ⟨sg.gs.cycles.slots.map (fun s => s.bind (fun cy =>
              if cy.player_handle = c.player_handle then none else some cy))⟩ },
          clients := ⟨sg.clients.slots.set h none⟩ },
        (sg.clients.pairs.filter (fun pc => pc.1 ≠ h)).map
          (fun pc => mkEv pc.1 (ServerMessage.removePlayer c.player_handle))) := by
  obtain ⟨p, hp⟩ := hp
  have hfree : sg.clients.free h = some (⟨sg.clients.slots.set h none⟩, c) := by
    simp [Pool.free, hget]
  have hfp : sg.gs.free_player c.player_handle =
      some { sg.gs with
        players := ⟨sg.gs.players.slots.set c.player_handle none⟩,
        cycles := ⟨sg.gs.cycles.slots.map (fun s => s.bind (fun cy =>
          if cy.player_handle = c.player_handle then none else some cy))⟩ } := by
    simp [GameState.free_player, Pool.free, hp]
  have hpairs : (Pool.mk (sg.clients.slots.set h none) : Pool RemoteClient).pairs
      = sg.clients.pairs.filter (fun pc => pc.1 ≠ h) := by
    have := pairsAux_set_none sg.clients.slots h 0
    simpa [Pool.pairs] using this
  have hok2 : AllOk { sg with
      gs := { sg.gs with
        players := ⟨sg.gs.players.slots.set c.player_handle none⟩,
        cycles := ⟨sg.gs.cycles.slots.map (fun s => s.bind (fun cy =>
          if cy.player_handle = c.player_handle then none else some cy))⟩ },
      clients := ⟨sg.clients.slots.set h none⟩ } := by
    intro pc hpc
    exact hok1 pc hpc
  unfold disconnectF
  simp only [hfree, hfp]
  rw [networkSendF_all_ok fuel _ _ hok2]
  rw [hpairs]

theorem filterFilter {α : Type} (p q : α → Bool) :
    ∀ l : List α, (l.filter p).filter q = l.filter (fun a => p a && q a) := by
  intro l
  induction l with
  | nil => simp
  | cons a l ih =>
      by_cases hp : p a
      · by_cases hq : q a
        · simp [List.filter_cons, hp, hq, ih]
        · simp [List.filter_cons, hp, hq, ih]
      · simp [List.filter_cons, hp, ih]

theorem disconnectListF_spec :
    ∀ (hcs : List (Nat × RemoteClient)) (fuel : Nat) (sg : ServerGame),
      hcs.length + 2 ≤ fuel →
      AllOk sg →
      (∀ pc ∈ hcs, sg.clients.get pc.1 = some pc.2) →
      (∀ pc ∈ hcs, ∃ p, sg.gs.players.get pc.2.player_handle = some p) →
      (hcs.map Prod.fst).Nodup →
      ((hcs.map (fun pc => pc.2.player_handle)).Nodup) →
      ∃ sg',
        disconnectListF fuel sg (hcs.map Prod.fst) =
          some (sg', removalTrace sg.clients.pairs hcs) ∧
        sg'.clients.pairs =
          sg.clients.pairs.filter (fun pc => pc.1 ∉ hcs.map Prod.fst) ∧
        (∀ j, sg.gs.players.get j = none → sg'.gs.players.get j = none) ∧
        (∀ pc ∈ hcs, sg'.gs.players.get pc.2.player_handle = none) ∧
        (∀ i cy, sg'.gs.cycles.get i = some cy → sg.gs.cycles.get i = some cy) ∧
        (∀ i cy, sg'.gs.cycles.get i = some cy →
          ∀ pc ∈ hcs, cy.player_handle ≠ pc.2.player_handle) ∧
        sg'.debug_texts = sg.debug_texts ∧
        sg'.debug_shapes = sg.debug_shapes ∧
        sg'.gs.game_time = sg.gs.game_time ∧
        sg'.gs.frame_number = sg.gs.frame_number := by
  intro hcs
  induction hcs with
  | nil =>
      intro fuel sg _ _ _ _ _ _
      refine ⟨sg, ?_, ?_, ?_, ?_, ?_, ?_, rfl, rfl, rfl, rfl⟩
      · simp [disconnectListF_nil, removalTrace]
      · simp
      · intro j hj; exact hj
      · intro pc hpc; cases hpc
      · intro i cy hcy; exact hcy
      · intro i cy _ pc hpc; cases hpc
  | cons hc rest ih =>
      intro fuel sg hfuel hok hget hp hnod hnodp
      obtain ⟨f, rfl⟩ : ∃ f, fuel = f + 3 := ⟨fuel - 3, by
        have := hfuel
        simp only [List.length_cons] at this
        omega⟩
      have hget1 : sg.clients.get hc.1 = some hc.2 := hget hc (List.mem_cons_self hc rest)
      have hp1 : ∃ p, sg.gs.players.get hc.2.player_handle = some p :=
        hp hc (List.mem_cons_self hc rest)
      have hpairs1 : (Pool.mk (sg.clients.slots.set hc.1 none) : Pool RemoteClient).pairs
          = sg.clients.pairs.filter (fun pc => pc.1 ≠ hc.1) := by
        have := pairsAux_set_none sg.clients.slots hc.1 0
        simpa [Pool.pairs] using this
      have hsurvOk : ∀ pc ∈ (Pool.mk (sg.clients.slots.set hc.1 none) : Pool RemoteClient).pairs,
          pc.2.sendOutcomes = [] := by
        intro pc hpc
        rw [hpairs1] at hpc
        exact hok pc (List.mem_of_mem_filter hpc)
      have hdisc := disconnectF_ok f sg hc.1 hc.2 hget1 hp1 hsurvOk
      have hfstne : ∀ pc ∈ rest, pc.1 ≠ hc.1 := by
        intro pc hpc heq
        have hn : hc.1 ∉ rest.map Prod.fst := by
          have := hnod
          simp only [List.map_cons, List.nodup_cons] at this
          exact this.1
        exact hn (heq ▸ List.mem_map_of_mem Prod.fst hpc)
      have hphne : ∀ pc ∈ rest, pc.2.player_handle ≠ hc.2.player_handle := by
        intro pc hpc heq
        have hn : hc.2.player_handle ∉ rest.map (fun pc => pc.2.player_handle) := by
          have := hnodp
          simp only [List.map_cons, List.nodup_cons] at this
          exact this.1
        exact hn (heq ▸ List.mem_map_of_mem (fun pc => pc.2.player_handle) hpc)
      -- the state after disconnecting hc
      set sgMid : ServerGame := { sg with
          gs := { sg.gs with
            players := ⟨sg.gs.players.slots.set hc.2.player_handle none⟩,
            cycles := ⟨sg.gs.cycles.slots.map (fun s => s.bind (fun cy =>
              if cy.player_handle = hc.2.player_handle then none else some cy))⟩ },
          clients := ⟨sg.clients.slots.set hc.1 none⟩ } with hsgMid
      have hdisc : disconnectF (f + 2) sg hc.1 =
          some (sgMid, (sg.clients.pairs.filter (fun pc => pc.1 ≠ hc.1)).map
            (fun pc => mkEv pc.1 (ServerMessage.removePlayer hc.2.player_handle))) :=
        disconnectF_ok f sg hc.1 hc.2 hget1 hp1 hsurvOk
      have hMidPairs : sgMid.clients.pairs =
          sg.clients.pairs.filter (fun pc => pc.1 ≠ hc.1) := hpairs1
      obtain ⟨sg2, hrun, hpairs2, hplnone, hplrem, hcyor, hcyne, hdt, hds, hgt, hfn⟩ :=
        ih (f + 2) sgMid
          (by
            have := hfuel
            simp only [List.length_cons] at this ⊢
            omega)
          (fun pc hpc => hsurvOk pc hpc)
          (by
            intro pc hpc
            show getAux (sg.clients.slots.set hc.1 none) pc.1 = some pc.2
            rw [getAux_set_ne sg.clients.slots hc.1 pc.1 none (hfstne pc hpc)]
            exact hget pc (List.mem_cons_of_mem hc hpc))
          (by
            intro pc hpc
            obtain ⟨p, hpp⟩ := hp pc (List.mem_cons_of_mem hc hpc)
            refine ⟨p, ?_⟩
            show getAux (sg.gs.players.slots.set hc.2.player_handle none)
              pc.2.player_handle = some p
            rw [getAux_set_ne sg.gs.players.slots hc.2.player_handle pc.2.player_handle
              none (hphne pc hpc)]
            exact hpp)
          (by
            have := hnod
            simp only [List.map_cons, List.nodup_cons] at this
            exact this.2)
          (by
            have := hnodp
            simp only [List.map_cons, List.nodup_cons] at this
            exact this.2)
      refine ⟨sg2, ?_, ?_, ?_, ?_, ?_, ?_, hdt, hds, hgt, hfn⟩
      · -- the run and its trace
        rw [List.map_cons]
        unfold disconnectListF
        rw [hdisc]
        dsimp only
        rw [hrun]
        simp only [removalTrace]
        rw [hMidPairs]
      · -- final live clients
        rw [hpairs2, hMidPairs, filterFilter, List.map_cons]
        apply List.filter_congr
        intro a _
        simp only [List.mem_cons, not_or, ne_eq, ← Bool.decide_and]
      · -- dead players stay dead
        intro j hj
        apply hplnone
        show getAux (sg.gs.players.slots.set hc.2.player_handle none) j = none
        by_cases hcase : j = hc.2.player_handle
        · subst hcase
          exact getAux_set_none_self sg.gs.players.slots _
        · rw [getAux_set_ne sg.gs.players.slots hc.2.player_handle j none hcase]
          exact hj
      · -- every disconnected client's player is freed
        intro pc hpc
        rcases List.mem_cons.mp hpc with hpc | hpc
        · subst hpc
          apply hplnone
          exact getAux_set_none_self sg.gs.players.slots pc.2.player_handle
        · exact hplrem pc hpc
      · -- cycles live at the end were live at the start
        intro i cy hcy
        have hmid := hcyor i cy hcy
        have hmid2 : (getAux sg.gs.cycles.slots i).bind (fun cy =>
            if cy.player_handle = hc.2.player_handle then none else some cy) = some cy := by
          rw [← getAux_map_none (fun s => s.bind (fun cy =>
            if cy.player_handle = hc.2.player_handle then none else some cy)) rfl
            sg.gs.cycles.slots i]
          exact hmid
        show getAux sg.gs.cycles.slots i = some cy
        cases hor : getAux sg.gs.cycles.slots i with
        | none => rw [hor] at hmid2; cases hmid2
        | some cy0 =>
            rw [hor] at hmid2
            simp only [Option.some_bind] at hmid2
            by_cases hph : cy0.player_handle = hc.2.player_handle
            · rw [if_pos hph] at hmid2; cases hmid2
            · rw [if_neg hph] at hmid2
              cases hmid2
              rfl
      · -- freed players have no cycle left
        intro i cy hcy pc hpc
        rcases List.mem_cons.mp hpc with hpc | hpc
        · subst hpc
          have hmid := hcyor i cy hcy
          have hmid2 : (getAux sg.gs.cycles.slots i).bind (fun cy =>
              if cy.player_handle = pc.2.player_handle then none else some cy) = some cy := by
            rw [← getAux_map_none (fun s => s.bind (fun cy =>
              if cy.player_handle = pc.2.player_handle then none else some cy)) rfl
              sg.gs.cycles.slots i]
            exact hmid
          cases hor : getAux sg.gs.cycles.slots i with
          | none => rw [hor] at hmid2; cases hmid2
          | some cy0 =>
              rw [hor] at hmid2
              simp only [Option.some_bind] at hmid2
              by_cases hph : cy0.player_handle = pc.2.player_handle
              · rw [if_pos hph] at hmid2; cases hmid2
              · rw [if_neg hph] at hmid2
                cases hmid2
                exact hph
        · exact hcyne i cy hcy pc hpc

theorem isSome_set_some {α : Type} (slots : List (Option α)) (k : Nat) (v p : α)
    (hk : getAux slots k = some p) :
    ∀ j, (getAux (slots.set k (some v)) j).isSome = (getAux slots j).isSome := by
  intro j
  by_cases hcase : j = k
  · subst hcase
    rw [getAux_set_self slots j p (some v) hk, hk]
    rfl
  · rw [getAux_set_ne slots k j (some v) hcase]

theorem processClientMsgs_spec :
    ∀ (ms : List ClientMessage) (gs : GameState) (ph : Nat),
      (∃ p, gs.players.get ph = some p) →
      ∃ gs', processClientMsgs gs ph ms = some (gs', clientBroadcasts ph ms) ∧
        (∀ j, (gs'.players.get j).isSome = (gs.players.get j).isSome) ∧
        gs'.cycles = gs.cycles ∧
        gs'.game_time = gs.game_time ∧
        gs'.frame_number = gs.frame_number ∧
        gs'.next_body = gs.next_body := by
  intro ms
  induction ms with
  | nil =>
      intro gs ph _
      exact ⟨gs, by simp [processClientMsgs, clientBroadcasts], fun j => rfl, rfl, rfl, rfl, rfl⟩
  | cons m rest ih =>
      intro gs ph hlive
      obtain ⟨p, hp⟩ := hlive
      match m with
      | ClientMessage.input i =>
          have hset : gs.players.setAt ph { p with input := i } =
              some ⟨gs.players.slots.set ph (some { p with input := i })⟩ := by
            simp [Pool.setAt, hp]
          have hlive1 : ∃ q, (Pool.mk (gs.players.slots.set ph
              (some { p with input := i })) : Pool Player).get ph = some q :=
            ⟨{ p with input := i }, getAux_set_self gs.players.slots ph p _ hp⟩
          obtain ⟨gs', hrun, hpres, hcy, hgt, hfn, hnb⟩ :=
            ih { gs with players := ⟨gs.players.slots.set ph
              (some { p with input := i })⟩ } ph hlive1
          refine ⟨gs', ?_, ?_, hcy, hgt, hfn, hnb⟩
          · simp only [processClientMsgs, processMessage, hp, hset]
            rw [hrun]
            simp [clientBroadcasts]
          · intro j
            rw [hpres j]
            exact isSome_set_some gs.players.slots ph _ p hp j
      | ClientMessage.chat t =>
          obtain ⟨gs', hrun, hpres, hcy, hgt, hfn, hnb⟩ := ih gs ph ⟨p, hp⟩
          refine ⟨gs', ?_, hpres, hcy, hgt, hfn, hnb⟩
          simp only [processClientMsgs, processMessage]
          rw [hrun]
          simp [clientBroadcasts]
      | ClientMessage.join =>
          have hset : gs.players.setAt ph { p with ps := PlayerState.playing } =
              some ⟨gs.players.slots.set ph (some { p with ps := PlayerState.playing })⟩ := by
            simp [Pool.setAt, hp]
          have hlive1 : ∃ q, (Pool.mk (gs.players.slots.set ph
              (some { p with ps := PlayerState.playing })) : Pool Player).get ph = some q :=
            ⟨{ p with ps := PlayerState.playing }, getAux_set_self gs.players.slots ph p _ hp⟩
          obtain ⟨gs', hrun, hpres, hcy, hgt, hfn, hnb⟩ :=
            ih { gs with players := ⟨gs.players.slots.set ph
              (some { p with ps := PlayerState.playing })⟩ } ph hlive1
          refine ⟨gs', ?_, ?_, hcy, hgt, hfn, hnb⟩
          · simp only [processClientMsgs, processMessage, hp, hset]
            rw [hrun]
            simp [clientBroadcasts]
          · intro j
            rw [hpres j]
            exact isSome_set_some gs.players.slots ph _ p hp j
      | ClientMessage.observe =>
          have hset : gs.players.setAt ph { p with ps := PlayerState.observing } =
              some ⟨gs.players.slots.set ph (some { p with ps := PlayerState.observing })⟩ := by
            simp [Pool.setAt, hp]
          have hlive1 : ∃ q, (Pool.mk (gs.players.slots.set ph
              (some { p with ps := PlayerState.observing })) : Pool Player).get ph = some q :=
            ⟨{ p with ps := PlayerState.observing }, getAux_set_self gs.players.slots ph p _ hp⟩
          obtain ⟨gs', hrun, hpres, hcy, hgt, hfn, hnb⟩ :=
            ih { gs with players := ⟨gs.players.slots.set ph
              (some { p with ps := PlayerState.observing })⟩ } ph hlive1
          refine ⟨gs', ?_, ?_, hcy, hgt, hfn, hnb⟩
          · simp only [processClientMsgs, processMessage, hp, hset]
            rw [hrun]
            simp [clientBroadcasts]
          · intro j
            rw [hpres j]
            exact isSome_set_some gs.players.slots ph _ p hp j

theorem receivePhase_spec :
    ∀ (prs : List (Nat × RemoteClient)) (gs : GameState),
      (∀ pc ∈ prs, ∃ p, gs.players.get pc.2.player_handle = some p) →
      ∃ gs', receivePhase gs prs = some (gs', queuedBroadcasts prs,
          (prs.filter (fun pc => pc.2.closedFlag)).map Prod.fst) ∧
        (∀ j, (gs'.players.get j).isSome = (gs.players.get j).isSome) ∧
        gs'.cycles = gs.cycles ∧
        gs'.game_time = gs.game_time ∧
        gs'.frame_number = gs.frame_number ∧
        gs'.next_body = gs.next_body := by
  intro prs
  induction prs with
  | nil =>
      intro gs _
      exact ⟨gs, by simp [receivePhase, queuedBroadcasts], fun j => rfl, rfl, rfl, rfl, rfl⟩
  | cons pc rest ih =>
      intro gs hlive
      obtain ⟨gs1, hrun1, hpres1, hcy1, hgt1, hfn1, hnb1⟩ :=
        processClientMsgs_spec pc.2.pendingReceive gs pc.2.player_handle
          (hlive pc (List.mem_cons_self pc rest))
      obtain ⟨gs2, hrun2, hpres2, hcy2, hgt2, hfn2, hnb2⟩ :=
        ih gs1 (by
          intro q hq
          obtain ⟨p, hp⟩ := hlive q (List.mem_cons_of_mem pc hq)
          have : (gs1.players.get q.2.player_handle).isSome = true := by
            rw [hpres1]
            simp [hp]
          obtain ⟨p', hp'⟩ := Option.isSome_iff_exists.mp this
          exact ⟨p', hp'⟩)
      refine ⟨gs2, ?_, ?_, hcy2.trans hcy1, hgt2.trans hgt1, hfn2.trans hfn1,
        hnb2.trans hnb1⟩
      · simp only [receivePhase]
        rw [hrun1]
        dsimp only
        rw [hrun2]
        simp only [queuedBroadcasts, List.filter_cons]
        by_cases hcl : pc.2.closedFlag
        · simp [hcl]
        · simp [hcl]
      · intro j
        rw [hpres2 j, hpres1 j]

theorem filter_map_comm {α β : Type} (g : α → β) (p : β → Bool) :
    ∀ l : List α, (l.map g).filter p = (l.filter (fun a => p (g a))).map g := by
  intro l
  induction l with
  | nil => simp
  | cons a l ih =>
      by_cases hp : p (g a)
      · simp [List.filter_cons, hp, ih]
      · simp [List.filter_cons, hp, ih]

theorem closedPairs_eq (sg : ServerGame) :
    closedPairs sg = (sg.clients.pairs.filter (fun pc => pc.2.closedFlag)).map
      (fun pc => (pc.1, clearRC pc.2)) := by
  show ((sg.clients.pairs.map (fun pc => (pc.1, clearRC pc.2))).filter
    (fun pc => pc.2.closedFlag)) = _
  rw [filter_map_comm]
  rfl

theorem closedPairs_fst (sg : ServerGame) :
    (closedPairs sg).map Prod.fst =
      (sg.clients.pairs.filter (fun pc => pc.2.closedFlag)).map Prod.fst := by
  rw [closedPairs_eq, List.map_map]
  rfl

theorem mem_clearedPairs {sg : ServerGame} {pc : Nat × RemoteClient}
    (hpc : pc ∈ clearedPairs sg) :
    ∃ q ∈ sg.clients.pairs, pc = (q.1, clearRC q.2) := by
  obtain ⟨q, hq, hqe⟩ := List.mem_map.mp hpc
  exact ⟨q, hq, hqe.symm⟩

theorem mem_closedPairs {sg : ServerGame} {pc : Nat × RemoteClient}
    (hpc : pc ∈ closedPairs sg) :
    ∃ q ∈ sg.clients.pairs, pc = (q.1, clearRC q.2) :=
  mem_clearedPairs (List.mem_of_mem_filter hpc)

theorem sysReceiveF_spec (fuel : Nat) (sg : ServerGame)
    (hfuel : (closedPairs sg).length + 2 ≤ fuel)
    (hok : AllOk sg)
    (hlive : ∀ pc ∈ sg.clients.pairs,
      (sg.gs.players.get pc.2.player_handle).isSome = true)
    (hnodp : (sg.clients.pairs.map (fun pc => pc.2.player_handle)).Nodup) :
    ∃ sg2,
      sysReceiveF fuel sg = some (sg2,
        removalTrace (clearedPairs sg) (closedPairs sg) ++
          allBroadcastTrace sg2.clients.pairs (queuedBroadcasts sg.clients.pairs)) ∧
      sg2.clients.pairs =
        (clearedPairs sg).filter (fun pc => pc.1 ∉ (closedPairs sg).map Prod.fst) ∧
      (∀ pc ∈ closedPairs sg, sg2.clients.get pc.1 = none) ∧
      (∀ pc ∈ closedPairs sg, sg2.gs.players.get pc.2.player_handle = none) ∧
      (∀ i cy, sg2.gs.cycles.get i = some cy → sg.gs.cycles.get i = some cy) ∧
      (∀ i cy, sg2.gs.cycles.get i = some cy →
        ∀ pc ∈ closedPairs sg, cy.player_handle ≠ pc.2.player_handle) := by
  obtain ⟨gs1, hrun1, hpres1, hcy1, hgt1, hfn1, hnb1⟩ :=
    receivePhase_spec sg.clients.pairs sg.gs (by
      intro pc hpc
      exact Option.isSome_iff_exists.mp (hlive pc hpc))
  have hpairsL : (ServerGame.mk gs1 (Pool.mapPool clearRC sg.clients)
      sg.debug_texts sg.debug_shapes).clients.pairs = clearedPairs sg :=
    pairsAux_map clearRC sg.clients.slots 0
  have hokCleared : ∀ pc ∈ clearedPairs sg, pc.2.sendOutcomes = [] := by
    intro pc hpc
    obtain ⟨q, hq, hqe⟩ := mem_clearedPairs hpc
    rw [hqe]
    exact hok q hq
  have hphCleared : (clearedPairs sg).map (fun pc => pc.2.player_handle) =
      sg.clients.pairs.map (fun pc => pc.2.player_handle) := by
    show ((sg.clients.pairs.map (fun pc => (pc.1, clearRC pc.2))).map
      (fun pc => pc.2.player_handle)) = _
    rw [List.map_map]
    rfl
  obtain ⟨sg2, hrunD, hpairsD, hplnoneD, hplremD, hcyorD, hcyneD, hdtD, hdsD, hgtD, hfnD⟩ :=
    disconnectListF_spec (closedPairs sg) fuel
      (ServerGame.mk gs1 (Pool.mapPool clearRC sg.clients) sg.debug_texts sg.debug_shapes)
      hfuel
      (by
        intro pc hpc
        rw [hpairsL] at hpc
        exact hokCleared pc hpc)
      (by
        intro pc hpc
        apply (Pool.get_iff_mem_pairs _ pc.1 pc.2).mpr
        have hgoal : (pc.1, pc.2) ∈ clearedPairs sg := by
          have := List.mem_of_mem_filter hpc
          simpa using this
        rw [hpairsL]
        exact hgoal)
      (by
        intro pc hpc
        obtain ⟨q, hq, hqe⟩ := mem_closedPairs hpc
        have hq2 : (gs1.players.get pc.2.player_handle).isSome = true := by
          rw [hpres1, hqe]
          exact hlive q hq
        exact Option.isSome_iff_exists.mp hq2)
      (by
        have hsub : List.Sublist ((closedPairs sg).map Prod.fst)
            ((clearedPairs sg).map Prod.fst) :=
          (List.filter_sublist _).map Prod.fst
        have hnodFst : ((clearedPairs sg).map Prod.fst).Nodup := by
          have hmm : (clearedPairs sg).map Prod.fst = sg.clients.pairs.map Prod.fst := by
            show ((sg.clients.pairs.map (fun pc => (pc.1, clearRC pc.2))).map Prod.fst) = _
            rw [List.map_map]
            rfl
          rw [hmm]
          exact pairs_fst_nodup sg.clients
        exact hnodFst.sublist hsub)
      (by
        have hsub : List.Sublist ((closedPairs sg).map (fun pc => pc.2.player_handle))
            ((clearedPairs sg).map (fun pc => pc.2.player_handle)) :=
          (List.filter_sublist _).map _
        rw [hphCleared] at hsub
        exact hnodp.sublist hsub)
  rw [hpairsL] at hrunD hpairsD
  have hokFinal : AllOk sg2 := by
    intro pc hpc
    rw [hpairsD] at hpc
    exact hokCleared pc (List.mem_of_mem_filter hpc)
  refine ⟨sg2, ?_, hpairsD, ?_, hplremD, ?_, hcyneD⟩
  · -- the run and the trace
    unfold sysReceiveF
    rw [hrun1]
    dsimp only
    rw [show ((sg.clients.pairs.filter (fun pc => pc.2.closedFlag)).map Prod.fst) =
      (closedPairs sg).map Prod.fst from (closedPairs_fst sg).symm]
    rw [hrunD]
    dsimp only
    obtain ⟨g, rfl⟩ : ∃ g, fuel = g + 1 := ⟨fuel - 1, by omega⟩
    rw [broadcastListF_ok g sg2 hokFinal (queuedBroadcasts sg.clients.pairs)]
  · -- queued clients are gone from the registry
    intro pc hpc
    cases hval : sg2.clients.get pc.1 with
    | none => rfl
    | some c =>
        exfalso
        have hmem := (Pool.get_iff_mem_pairs sg2.clients pc.1 c).mp hval
        rw [hpairsD] at hmem
        have hnotin := List.of_mem_filter hmem
        simp only [decide_eq_true_eq] at hnotin
        exact hnotin (List.mem_map_of_mem Prod.fst hpc)
  · -- cycles live at the end were live before the tick
    intro i cy hcy
    have hmid := hcyorD i cy hcy
    have hc1 : (ServerGame.mk gs1 (Pool.mapPool clearRC sg.clients)
        sg.debug_texts sg.debug_shapes).gs.cycles.get i = sg.gs.cycles.get i := by
      show gs1.cycles.get i = sg.gs.cycles.get i
      rw [hcy1]
    rw [hc1] at hmid
    exact hmid

theorem Pool.get_spawn {α : Type} (p : Pool α) (a : α) :
    (p.spawn a).1.get (p.spawn a).2 = some a :=
  spawnAux_get p.slots a

theorem Pool.get_spawn_fresh {α : Type} (p : Pool α) (a : α) :
    p.get (p.spawn a).2 = none :=
  spawnAux_fresh p.slots a

theorem mem_pairs_spawn {α : Type} {p : Pool α} {a : α} {pc : Nat × α}
    (h : pc ∈ (p.spawn a).1.pairs) : pc ∈ p.pairs ∨ pc.2 = a := by
  rcases mem_pairsAux_spawnAux p.slots a 0 pc h with h2 | h2
  · exact Or.inl h2
  · right
    rw [h2]

theorem spawn_fst_not_mem {α : Type} (p : Pool α) (a : α) :
    (p.spawn a).2 ∉ p.pairs.map Prod.fst := by
  intro hmem
  rcases List.mem_map.mp hmem with ⟨pc, hpc, hfst⟩
  have hsome := (Pool.get_iff_mem_pairs p pc.1 pc.2).mpr hpc
  rw [hfst, Pool.get_spawn_fresh] at hsome
  cases hsome

theorem mem_pairs_spawn_new {α : Type} (p : Pool α) (a : α) :
    ((p.spawn a).2, a) ∈ (p.spawn a).1.pairs :=
  (Pool.get_iff_mem_pairs (p.spawn a).1 (p.spawn a).2 a).mp (Pool.get_spawn p a)

theorem acceptOneState_allOk (sg : ServerGame) (conn : IncomingConn)
    (hok : AllOk sg) (hconn : conn.sendOutcomes = []) :
    AllOk (acceptOneState sg conn) := by
  intro pc hpc
  have hpc2 : pc ∈ (sg.clients.spawn (RemoteClient.newClient conn
      (sg.gs.players.spawn Player.new).2)).1.pairs := hpc
  rcases mem_pairs_spawn hpc2 with h2 | h2
  · exact hok pc h2
  · rw [h2]
    exact hconn

theorem acceptF_cons (fuel : Nat) (sg : ServerGame) (conn : IncomingConn)
    (rest : List IncomingConn) (e : AcceptEnd)
    (hfuel : 1 ≤ fuel)
    (hok : AllOk sg) (hconn : conn.sendOutcomes = [])
    (res : Option (ServerGame × List SendEvent))
    (hres : acceptNewConnectionsF fuel (acceptOneState sg conn) rest e = res) :
    acceptNewConnectionsF fuel sg (conn :: rest) e =
      res.map (fun r => (r.1, acceptOneTrace sg conn ++ r.2)) := by
  obtain ⟨f, rfl⟩ : ∃ f, fuel = f + 1 := ⟨fuel - 1, by omega⟩
  have hokA : AllOk ({ sg with
      gs := { sg.gs with players := (sg.gs.players.spawn Player.new).1 } } : ServerGame) :=
    hok
  have h1 := networkSendF_all_ok f ({ sg with
      gs := { sg.gs with players := (sg.gs.players.spawn Player.new).1 } } : ServerGame)
    (ServerMessage.addPlayer ⟨"Player", (sg.gs.players.spawn Player.new).2⟩) hokA
  have hgetC : ({ sg with
      gs := { sg.gs with players := (sg.gs.players.spawn Player.new).1 },
      clients := (sg.clients.spawn (RemoteClient.newClient conn
        (sg.gs.players.spawn Player.new).2)).1 } : ServerGame).clients.get
        (sg.clients.spawn (RemoteClient.newClient conn
          (sg.gs.players.spawn Player.new).2)).2 =
      some (RemoteClient.newClient conn (sg.gs.players.spawn Player.new).2) :=
    Pool.get_spawn sg.clients _
  have h2 : sendInitF (f + 1) ({ sg with
      gs := { sg.gs with players := (sg.gs.players.spawn Player.new).1 },
      clients := (sg.clients.spawn (RemoteClient.newClient conn
        (sg.gs.players.spawn Player.new).2)).1 } : ServerGame)
      (sg.clients.spawn (RemoteClient.newClient conn
        (sg.gs.players.spawn Player.new).2)).2 =
      some (({ sg with
          gs := { sg.gs with players := (sg.gs.players.spawn Player.new).1 },
          clients := (sg.clients.spawn (RemoteClient.newClient conn
            (sg.gs.players.spawn Player.new).2)).1 } : ServerGame),
        [mkEv (sg.clients.spawn (RemoteClient.newClient conn
            (sg.gs.players.spawn Player.new).2)).2
          (ServerMessage.initData
            ⟨(sg.gs.players.spawn Player.new).1.pairs.map Prod.fst,
              (sg.gs.players.spawn Player.new).2,
              sg.gs.cycles.pairs.map (fun hc => PlayerCycle.mk hc.2.player_handle hc.1),
              []⟩)]) := by
    unfold sendInitF
    rw [hgetC]
    exact networkSendF_one_ok f _ _ _ _ hgetC hconn
  have hokC : AllOk ({ sg with
      gs := { sg.gs with
        players := (sg.gs.players.spawn Player.new).1,
        cycles := (sg.gs.cycles.spawn
          ⟨(sg.gs.players.spawn Player.new).2, sg.gs.next_body⟩).1,
        next_body := sg.gs.next_body + 1 },
      clients := (sg.clients.spawn (RemoteClient.newClient conn
        (sg.gs.players.spawn Player.new).2)).1 } : ServerGame) := by
    intro pc hpc
    have hpc2 : pc ∈ (sg.clients.spawn (RemoteClient.newClient conn
        (sg.gs.players.spawn Player.new).2)).1.pairs := hpc
    rcases mem_pairs_spawn hpc2 with h3 | h3
    · exact hok pc h3
    · rw [h3]
      exact hconn
  have h3 := networkSendF_all_ok f ({ sg with
      gs := { sg.gs with
        players := (sg.gs.players.spawn Player.new).1,
        cycles := (sg.gs.cycles.spawn
          ⟨(sg.gs.players.spawn Player.new).2, sg.gs.next_body⟩).1,
        next_body := sg.gs.next_body + 1 },
      clients := (sg.clients.spawn (RemoteClient.newClient conn
        (sg.gs.players.spawn Player.new).2)).1 } : ServerGame)
    (ServerMessage.spawnCycle ⟨(sg.gs.players.spawn Player.new).2,
      (sg.gs.cycles.spawn ⟨(sg.gs.players.spawn Player.new).2, sg.gs.next_body⟩).2⟩)
    hokC
  rw [show acceptOneState sg conn = ({
      gs := { players := (sg.gs.players.spawn Player.new).1,
              cycles := (sg.gs.cycles.spawn
                { player_handle := (sg.gs.players.spawn Player.new).2,
                  body_handle := sg.gs.next_body }).1,
              game_time := sg.gs.game_time,
              frame_number := sg.gs.frame_number,
              next_body := sg.gs.next_body + 1 },
      clients := (sg.clients.spawn (RemoteClient.newClient conn
        (sg.gs.players.spawn Player.new).2)).1,
      debug_texts := sg.debug_texts,
      debug_shapes := sg.debug_shapes } : ServerGame) from rfl] at hres
  unfold acceptNewConnectionsF
  dsimp only
  rw [h1]
  dsimp only
  rw [h2]
  dsimp only
  rw [show ({ sg with
      gs := { sg.gs with players := (sg.gs.players.spawn Player.new).1 },
      clients := (sg.clients.spawn (RemoteClient.newClient conn
        (sg.gs.players.spawn Player.new).2)).1 } : ServerGame).gs.spawn_cycle
        (sg.gs.players.spawn Player.new).2 =
      ({ sg.gs with
          players := (sg.gs.players.spawn Player.new).1,
          cycles := (sg.gs.cycles.spawn
            ⟨(sg.gs.players.spawn Player.new).2, sg.gs.next_body⟩).1,
          next_body := sg.gs.next_body + 1 },
        (sg.gs.cycles.spawn
          ⟨(sg.gs.players.spawn Player.new).2, sg.gs.next_body⟩).2) from rfl]
  dsimp only
  rw [h3]
  dsimp only
  rw [hres]
  cases res with
  | none => rfl
  | some r => rfl

theorem acceptF_one (fuel : Nat) (sg : ServerGame) (conn : IncomingConn)
    (hfuel : 1 ≤ fuel)
    (hok : AllOk sg) (hconn : conn.sendOutcomes = []) :
    acceptNewConnectionsF fuel sg [conn] AcceptEnd.wouldBlock =
      some (acceptOneState sg conn, acceptOneTrace sg conn) := by
  have h := acceptF_cons fuel sg conn [] AcceptEnd.wouldBlock hfuel hok hconn
    (some (acceptOneState sg conn, [])) rfl
  rw [h]
  simp

theorem acceptF_wouldBlock_some :
    ∀ (conns : List IncomingConn) (fuel : Nat) (sg : ServerGame),
      1 ≤ fuel →
      AllOk sg → (∀ cn ∈ conns, cn.sendOutcomes = []) →
      ∃ r, acceptNewConnectionsF fuel sg conns AcceptEnd.wouldBlock = some r := by
  intro conns
  induction conns with
  | nil =>
      intro fuel sg hfuel _ _
      obtain ⟨f, rfl⟩ : ∃ f, fuel = f + 1 := ⟨fuel - 1, by omega⟩
      exact ⟨(sg, []), rfl⟩
  | cons conn rest ih =>
      intro fuel sg hfuel hok hconns
      obtain ⟨r, hr⟩ := ih fuel (acceptOneState sg conn) hfuel
        (acceptOneState_allOk sg conn hok (hconns conn (List.mem_cons_self conn rest)))
        (fun cn hcn => hconns cn (List.mem_cons_of_mem conn hcn))
      rw [acceptF_cons fuel sg conn rest AcceptEnd.wouldBlock hfuel hok
        (hconns conn (List.mem_cons_self conn rest)) (some r) hr]
      exact ⟨_, rfl⟩

theorem acceptF_fatal_none :
    ∀ (conns : List IncomingConn) (fuel : Nat) (sg : ServerGame),
      1 ≤ fuel →
      AllOk sg → (∀ cn ∈ conns, cn.sendOutcomes = []) →
      acceptNewConnectionsF fuel sg conns AcceptEnd.fatalError = none := by
  intro conns
  induction conns with
  | nil =>
      intro fuel sg hfuel _ _
      obtain ⟨f, rfl⟩ : ∃ f, fuel = f + 1 := ⟨fuel - 1, by omega⟩
      rfl
  | cons conn rest ih =>
      intro fuel sg hfuel hok hconns
      have hnone := ih fuel (acceptOneState sg conn) hfuel
        (acceptOneState_allOk sg conn hok (hconns conn (List.mem_cons_self conn rest)))
        (fun cn hcn => hconns cn (List.mem_cons_of_mem conn hcn))
      rw [acceptF_cons fuel sg conn rest AcceptEnd.fatalError hfuel hok
        (hconns conn (List.mem_cons_self conn rest)) none hnone]
      rfl

theorem removalTrace_msgs :
    ∀ (hcs prs : List (Nat × RemoteClient)), ∀ e ∈ removalTrace prs hcs,
      ∃ p, e.msg = ServerMessage.removePlayer p := by
  intro hcs
  induction hcs with
  | nil =>
      intro prs e he
      simp [removalTrace] at he
  | cons hc rest ih =>
      intro prs e he
      simp only [removalTrace, List.mem_append] at he
      rcases he with he | he
      · rcases List.mem_map.mp he with ⟨pc, _, hpc⟩
        refine ⟨hc.2.player_handle, ?_⟩
        rw [← hpc]
        rfl
      · exact ih _ e he

theorem clientBroadcasts_mem :
    ∀ (ms : List ClientMessage) (ph : Nat), ∀ m ∈ clientBroadcasts ph ms,
      isJoinOrObserve m := by
  intro ms
  induction ms with
  | nil =>
      intro ph m hm
      simp [clientBroadcasts] at hm
  | cons c rest ih =>
      intro ph m hm
      match c with
      | ClientMessage.input i => exact ih ph m hm
      | ClientMessage.chat t => exact ih ph m hm
      | ClientMessage.join =>
          rcases List.mem_cons.mp hm with hm | hm
          · rw [hm]
            trivial
          · exact ih ph m hm
      | ClientMessage.observe =>
          rcases List.mem_cons.mp hm with hm | hm
          · rw [hm]
            trivial
          · exact ih ph m hm

theorem queuedBroadcasts_mem :
    ∀ (prs : List (Nat × RemoteClient)), ∀ m ∈ queuedBroadcasts prs,
      isJoinOrObserve m := by
  intro prs
  induction prs with
  | nil =>
      intro m hm
      simp [queuedBroadcasts] at hm
  | cons pc rest ih =>
      intro m hm
      simp only [queuedBroadcasts, List.mem_append] at hm
      rcases hm with hm | hm
      · exact clientBroadcasts_mem pc.2.pendingReceive pc.2.player_handle m hm
      · exact ih m hm

theorem allBroadcastTrace_msgs :
    ∀ (ms : List ServerMessage) (prs : List (Nat × RemoteClient)),
      ∀ e ∈ allBroadcastTrace prs ms, e.msg ∈ ms := by
  intro ms
  induction ms with
  | nil =>
      intro prs e he
      simp [allBroadcastTrace] at he
  | cons m rest ih =>
      intro prs e he
      simp only [allBroadcastTrace, List.mem_append] at he
      rcases he with he | he
      · rcases List.mem_map.mp he with ⟨pc, _, hpc⟩
        rw [← hpc]
        exact List.mem_cons_self m rest
      · right
        exact ih prs e he

theorem allBroadcastTrace_filter_remove (prs : List (Nat × RemoteClient))
    (ms : List ServerMessage) (p : Nat) (hms : ∀ m ∈ ms, isJoinOrObserve m) :
    (allBroadcastTrace prs ms).filter
      (fun e => e.msg = ServerMessage.removePlayer p) = [] := by
  rw [List.filter_eq_nil]
  intro e he
  have hmem := allBroadcastTrace_msgs ms prs e he
  have h2 := hms e.msg hmem
  simp only [decide_eq_true_eq]
  intro hcon
  rw [hcon] at h2
  exact h2

theorem removalTrace_filter_ne :
    ∀ (hcs prs : List (Nat × RemoteClient)) (p : Nat),
      (∀ q ∈ hcs, q.2.player_handle ≠ p) →
      (removalTrace prs hcs).filter
        (fun e => e.msg = ServerMessage.removePlayer p) = [] := by
  intro hcs
  induction hcs with
  | nil =>
      intro prs p _
      simp [removalTrace]
  | cons hc rest ih =>
      intro prs p hne
      simp only [removalTrace, List.filter_append]
      rw [ih _ p (fun q hq => hne q (List.mem_cons_of_mem hc hq))]
      rw [List.filter_eq_nil.mpr]
      · simp
      · intro e he
        rcases List.mem_map.mp he with ⟨pc, _, hpc⟩
        simp only [decide_eq_true_eq]
        intro hcon
        rw [← hpc] at hcon
        have : hc.2.player_handle = p := by
          simpa [mkEv] using hcon
        exact hne hc (List.mem_cons_self hc rest) this

theorem removalTrace_filter_group :
    ∀ (pre : List (Nat × RemoteClient)) (prs : List (Nat × RemoteClient))
      (hc : Nat × RemoteClient) (post : List (Nat × RemoteClient)),
      (∀ q ∈ pre, q.2.player_handle ≠ hc.2.player_handle) →
      (∀ q ∈ post, q.2.player_handle ≠ hc.2.player_handle) →
      (removalTrace prs (pre ++ hc :: post)).filter
          (fun e => e.msg = ServerMessage.removePlayer hc.2.player_handle) =
        (prs.filter (fun pc => pc.1 ∉ (pre ++ [hc]).map Prod.fst)).map
          (fun pc => mkEv pc.1 (ServerMessage.removePlayer hc.2.player_handle)) := by
  intro pre
  induction pre with
  | nil =>
      intro prs hc post _ hpost
      simp only [List.nil_append, removalTrace, List.filter_append]
      rw [removalTrace_filter_ne post _ _ hpost, List.append_nil]
      rw [List.filter_eq_self.mpr (by
        intro e he
        rcases List.mem_map.mp he with ⟨pc, _, hpc⟩
        rw [← hpc]
        simp [mkEv])]
      congr 1
      apply List.filter_congr
      intro a _
      rw [decide_eq_decide]
      simp
  | cons q pre ih =>
      intro prs hc post hpre hpost
      simp only [List.cons_append, removalTrace, List.filter_append]
      rw [List.filter_eq_nil.mpr (by
        intro e he
        rcases List.mem_map.mp he with ⟨pc, _, hpc⟩
        simp only [decide_eq_true_eq]
        intro hcon
        rw [← hpc] at hcon
        have hq : q.2.player_handle = hc.2.player_handle := by
          simpa [mkEv] using hcon
        exact hpre q (List.mem_cons_self q pre) hq)]
      rw [List.nil_append]
      simp only [List.append_eq]
      rw [ih (prs.filter (fun pc => pc.1 ≠ q.1)) hc post
        (fun r hr => hpre r (List.mem_cons_of_mem q hr)) hpost]
      rw [filterFilter]
      congr 1
      apply List.filter_congr
      intro a _
      rw [← Bool.decide_and, decide_eq_decide]
      simp only [List.map_cons, List.mem_cons, not_or, ne_eq, List.cons_append]

theorem nodup_split_ne {α β : Type} (f : α → β) (pre : List α) (hc : α) (post : List α)
    (hnod : ((pre ++ hc :: post).map f).Nodup) :
    (∀ q ∈ pre, f q ≠ f hc) ∧ (∀ q ∈ post, f q ≠ f hc) := by
  rw [List.map_append, List.map_cons, List.nodup_append] at hnod
  obtain ⟨h1, h2, hdisj⟩ := hnod
  constructor
  · intro q hq heq
    exact hdisj (List.mem_map_of_mem f hq)
      (by rw [heq]; exact List.mem_cons_self _ _)
  · intro q hq heq
    have hcons := List.nodup_cons.mp h2
    exact hcons.1 (by rw [← heq]; exact List.mem_map_of_mem f hq)

theorem networkSendF_all_structure (fuel : Nat) (sg : ServerGame)
    (msg : ServerMessage) (sg' : ServerGame) (evs : List SendEvent)
    (hrun : networkSendF fuel sg msg SendDest.all = some (sg', evs)) :
    ∃ rest, evs = sg.clients.pairs.map
        (fun pc => SendEvent.mk pc.1 msg (serialize msg) pc.2.sendOne.1) ++ rest := by
  obtain ⟨f, rfl⟩ : ∃ f, fuel = f + 1 := by
    cases fuel with
    | zero => cases hrun
    | succ f => exact ⟨f, rfl⟩
  unfold networkSendF at hrun
  dsimp only at hrun
  cases hd : disconnectListF f
      ({ sg with clients := ⟨(fanoutAux msg (serialize msg) sg.clients.slots 0).1⟩ } : ServerGame)
      (fanoutAux msg (serialize msg) sg.clients.slots 0).2.2 with
  | none =>
      rw [hd] at hrun
      cases hrun
  | some d =>
      rw [hd] at hrun
      simp only [Option.some.injEq, Prod.mk.injEq] at hrun
      refine ⟨d.2, ?_⟩
      rw [← hrun.2]
      rw [fanoutAux_events msg (serialize msg) sg.clients.slots 0]
      rfl

theorem emitTexts_spec : ∀ (ts : List String) (sg : ServerGame),
    emitTexts sg ts = { sg with debug_texts := sg.debug_texts ++ ts } := by
  intro ts
  induction ts with
  | nil =>
      intro sg
      simp [emitTexts]
  | cons t rest ih =>
      intro sg
      rw [emitTexts, ih]
      simp [dbgText]

theorem emitShapes_spec : ∀ (shs : List Nat) (sg : ServerGame),
    emitShapes sg shs = { sg with debug_shapes := sg.debug_shapes ++ shs } := by
  intro shs
  induction shs with
  | nil =>
      intro sg
      simp [emitShapes]
  | cons sh rest ih =>
      intro sg
      rw [emitShapes, ih]
      simp [dbgShape]

theorem sysSendUpdate_ok (fuel : Nat) (scene : Nat → CycleBody) (sg : ServerGame)
    (hok : AllOk sg) :
    sysSendUpdateF (fuel + 1) scene sg =
      some ({ sg with debug_texts := [], debug_shapes := [] },
        sg.clients.pairs.map (fun pc => mkEv pc.1
          (ServerMessage.update ⟨cycleSnapshot scene sg.gs.cycles⟩
            sg.debug_texts sg.debug_shapes))) := by
  have hok1 : AllOk ({ sg with debug_texts := [], debug_shapes := [] } : ServerGame) := hok
  unfold sysSendUpdateF
  dsimp only
  rw [networkSendF_all_ok fuel ({ sg with debug_texts := [], debug_shapes := [] } : ServerGame)
    (ServerMessage.update ⟨cycleSnapshot scene sg.gs.cycles⟩
      sg.debug_texts sg.debug_shapes) hok1]

theorem updateLoop_spec_aux {σ : Type} (tickFn : Nat → σ → σ) (target : Rat) :
    ∀ (m : Nat) (gt : Rat), (⌈(target - gt) / dt⌉).toNat ≤ m →
      ∀ (fn : Nat) (s : σ),
      ∃ n : Nat,
        updateLoop tickFn target gt fn s =
          (gt + n * dt, fn + n, iterTicks tickFn fn n s) ∧
        ¬ (gt + n * dt + dt < target) ∧
        ∀ k < n, gt + k * dt + dt < target := by
  intro m
  induction m with
  | zero =>
      intro gt hm fn s
      have hstop : ¬ (gt + dt < target) := by
        intro hlt
        have hdt : (0 : Rat) < dt := by norm_num [dt]
        have h1 : (1 : Rat) < (target - gt) / dt := by
          rw [lt_div_iff₀ hdt]
          linarith
        have h2 : (1 : Int) < ⌈(target - gt) / dt⌉ := by
          exact_mod_cast lt_of_lt_of_le h1 (Int.le_ceil _)
        omega
      refine ⟨0, ?_, ?_, ?_⟩
      · rw [updateLoop, if_neg hstop]
        norm_num [iterTicks]
      · simpa using hstop
      · intro k hk
        omega
  | succ m ihm =>
      intro gt hm fn s
      by_cases hlt : gt + dt < target
      · have hdt : (0 : Rat) < dt := by norm_num [dt]
        have hdiv : (target - (gt + dt)) / dt = (target - gt) / dt - 1 := by
          rw [show target - (gt + dt) = (target - gt) - dt from by ring, sub_div,
            div_self (ne_of_gt hdt)]
        have hmeas : (⌈(target - (gt + dt)) / dt⌉).toNat ≤ m := by
          rw [hdiv, Int.ceil_sub_one]
          omega
        obtain ⟨n, hrun, hstop, hall⟩ := ihm (gt + dt) hmeas (fn + 1) (tickFn (fn + 1) s)
        refine ⟨n + 1, ?_, ?_, ?_⟩
        · rw [updateLoop, if_pos hlt, hrun]
          simp only [Prod.mk.injEq]
          refine ⟨by push_cast; ring, by omega, rfl⟩
        · intro hcon
          apply hstop
          push_cast at hcon ⊢
          linarith
        · intro k hk
          cases k with
          | zero => simpa using hlt
          | succ j =>
              have hj := hall j (by omega)
              push_cast at hj ⊢
              linarith
      · refine ⟨0, ?_, ?_, ?_⟩
        · rw [updateLoop, if_neg hlt]
          norm_num [iterTicks]
        · simpa using hlt
        · intro k hk
          omega

/-! ## The claims -/

/-- C6: for every broadcast in a tick with k connected clients, exactly
k sends are attempted, one per live client in registry order, with the
outcome each client's transport yields — a failure for one client does
not suppress the attempt for any other client; whatever disconnect
handling a failure triggers is appended strictly after the complete
fan-out. -/
theorem rustcycles_c6_broadcast_fanout (fuel : Nat) (sg : ServerGame)
    (msg : ServerMessage) (sg' : ServerGame) (evs : List SendEvent)
    (hrun : networkSendF fuel sg msg SendDest.all = some (sg', evs)) :
    ∃ rest, evs = sg.clients.pairs.map
        (fun pc => SendEvent.mk pc.1 msg (serialize msg) pc.2.sendOne.1) ++ rest :=
  networkSendF_all_structure fuel sg msg sg' evs hrun

/-- Witness for C6: a two-client registry in which the send to client 0
fails; both sends are still attempted and recorded, in order. -/
theorem rustcycles_c6_broadcast_fanout_witness :
    networkSendF 5 c6state (ServerMessage.join 0) SendDest.all =
        some (c6result, c6events) ∧
      (∃ rest, c6events = c6state.clients.pairs.map
        (fun pc => SendEvent.mk pc.1 (ServerMessage.join 0)
          (serialize (ServerMessage.join 0)) pc.2.sendOne.1) ++ rest) := by
  refine ⟨by decide, ?_⟩
  exact rustcycles_c6_broadcast_fanout 5 c6state (ServerMessage.join 0)
    c6result c6events (by decide)

/-- C8: the update loop of ServerGame::update advances the clock only
in fixed steps of dt = 1/60 s: it performs some number n of steps,
each adding exactly dt to game_time and exactly 1 to frame_number and
running the tick body once, and it iterates exactly until the simulated
time is within one dt of the target — the guard fails after the last
step and held before every earlier step — independently of the state
the body computes. -/
theorem rustcycles_c8_fixed_timestep {σ : Type} (tickFn : Nat → σ → σ)
    (game_time_target game_time : Rat) (frame_number : Nat) (s : σ) :
    ∃ n : Nat,
      updateLoop tickFn game_time_target game_time frame_number s =
        (game_time + n * dt, frame_number + n, iterTicks tickFn frame_number n s) ∧
      ¬ (game_time + n * dt + dt < game_time_target) ∧
      ∀ k < n, game_time + k * dt + dt < game_time_target :=
  updateLoop_spec_aux tickFn game_time_target
    ((⌈(game_time_target - game_time) / dt⌉).toNat) game_time (Nat.le_refl _)
    frame_number s

/-- C10: within a single network_send broadcast, every one of the k
fan-out sends carries the same byte sequence, the serialization of the
message computed once up front. -/
theorem rustcycles_c10_identical_bytes (fuel : Nat) (sg : ServerGame)
    (msg : ServerMessage) (sg' : ServerGame) (evs : List SendEvent)
    (hrun : networkSendF fuel sg msg SendDest.all = some (sg', evs)) :
    ∀ e ∈ evs.take sg.clients.liveCount, e.bytes = serialize msg := by
  obtain ⟨rest, hevs⟩ := networkSendF_all_structure fuel sg msg sg' evs hrun
  intro e he
  rw [hevs] at he
  have hlen : sg.clients.liveCount = (sg.clients.pairs.map
      (fun pc => SendEvent.mk pc.1 msg (serialize msg) pc.2.sendOne.1)).length := by
    rw [List.length_map]
    rfl
  rw [hlen, List.take_left] at he
  rcases List.mem_map.mp he with ⟨pc, _, hpc⟩
  rw [← hpc]

/-- Witness for C10: in the two-client scenario with one failing send,
both recorded fan-out events carry the identical serialized bytes. -/
theorem rustcycles_c10_identical_bytes_witness :
    networkSendF 5 c6state (ServerMessage.join 0) SendDest.all =
        some (c6result, c6events) ∧
      (∀ e ∈ c6events.take c6state.clients.liveCount,
        e.bytes = serialize (ServerMessage.join 0)) := by
  refine ⟨by decide, ?_⟩
  exact rustcycles_c10_identical_bytes 5 c6state (ServerMessage.join 0)
    c6result c6events (by decide)

/-- C9: when every send succeeds, the per-tick Update message carries
exactly the debug texts and shapes accumulated since the previous
update and the physics snapshot covering every live cycle exactly once
(one entry per live pool slot, in handle order); sending clears both
debug buffers, and items emitted after the send appear in exactly the
next Update message. -/
theorem rustcycles_c9_update_debug (fuel : Nat) (scene : Nat → CycleBody)
    (sg : ServerGame) (hfuel : 1 ≤ fuel) (hok : AllOk sg) :
    sysSendUpdateF fuel scene sg =
      some ({ sg with debug_texts := [], debug_shapes := [] },
        sg.clients.pairs.map (fun pc => mkEv pc.1
          (ServerMessage.update ⟨cycleSnapshot scene sg.gs.cycles⟩
            sg.debug_texts sg.debug_shapes))) ∧
    (∀ (ts : List String) (shs : List Nat) (fuel2 : Nat) (scene2 : Nat → CycleBody),
      1 ≤ fuel2 →
      sysSendUpdateF fuel2 scene2
          (emitShapes (emitTexts ({ sg with debug_texts := [], debug_shapes := [] }) ts) shs) =
        some ({ sg with debug_texts := [], debug_shapes := [] },
          sg.clients.pairs.map (fun pc => mkEv pc.1
            (ServerMessage.update ⟨cycleSnapshot scene2 sg.gs.cycles⟩ ts shs)))) := by
  obtain ⟨f, rfl⟩ : ∃ f, fuel = f + 1 := ⟨fuel - 1, by omega⟩
  constructor
  · exact sysSendUpdate_ok f scene sg hok
  · intro ts shs fuel2 scene2 hfuel2
    obtain ⟨f2, rfl⟩ : ∃ f2, fuel2 = f2 + 1 := ⟨fuel2 - 1, by omega⟩
    rw [emitTexts_spec, emitShapes_spec]
    have hok2 : AllOk ({ sg with debug_texts := [] ++ ts, debug_shapes := [] ++ shs } :
        ServerGame) := hok
    have h := sysSendUpdate_ok f2 scene2
      ({ sg with debug_texts := [] ++ ts, debug_shapes := [] ++ shs } : ServerGame) hok2
    rw [h]
    simp

/-- Witness for C9 at a concrete server with one client, one cycle and
two pending debug texts. -/
theorem rustcycles_c9_update_debug_witness :
    sysSendUpdateF 1 c9scene c9state =
        some ({ c9state with debug_texts := [], debug_shapes := [] },
          c9state.clients.pairs.map (fun pc => mkEv pc.1
            (ServerMessage.update ⟨cycleSnapshot c9scene c9state.gs.cycles⟩
              c9state.debug_texts c9state.debug_shapes))) := by
  exact (rustcycles_c9_update_debug 1 c9scene c9state (by omega) (by
    show ∀ pc ∈ c9state.clients.pairs, pc.2.sendOutcomes = []
    decide)).1

/-- C7: when the single connected client delivers Join followed by
Observe within one tick's receive phase, the player ends the phase in
the Observing state (the last message wins), and both the Join and the
Observe broadcast are emitted, in arrival order, within the tick. -/
theorem rustcycles_c7_join_then_observe (fuel : Nat) (sg : ServerGame)
    (h ph : Nat) (c : RemoteClient) (p : Player)
    (hfuel : 1 ≤ fuel)
    (hpairs : sg.clients.pairs = [(h, c)])
    (hc : c = ⟨ph, [ClientMessage.join, ClientMessage.observe], false, []⟩)
    (hp : sg.gs.players.get ph = some p) :
    ∃ sg2, sysReceiveF fuel sg = some (sg2,
        [mkEv h (ServerMessage.join ph), mkEv h (ServerMessage.observe ph)]) ∧
      sg2.gs.players.get ph = some { p with ps := PlayerState.observing } := by
  subst hc
  obtain ⟨f, rfl⟩ : ∃ f, fuel = f + 1 := ⟨fuel - 1, by omega⟩
  have hsetJ : sg.gs.players.setAt ph { p with ps := PlayerState.playing } =
      some ⟨sg.gs.players.slots.set ph (some { p with ps := PlayerState.playing })⟩ := by
    simp [Pool.setAt, hp]
  have hgetO : (Pool.mk (sg.gs.players.slots.set ph
      (some { p with ps := PlayerState.playing })) : Pool Player).get ph =
      some { p with ps := PlayerState.playing } :=
    getAux_set_self sg.gs.players.slots ph p _ hp
  have hsetO : (Pool.mk (sg.gs.players.slots.set ph
      (some { p with ps := PlayerState.playing })) : Pool Player).setAt ph
      { p with ps := PlayerState.observing } =
      some ⟨(sg.gs.players.slots.set ph
        (some { p with ps := PlayerState.playing })).set ph
        (some { p with ps := PlayerState.observing })⟩ := by
    simp [Pool.setAt, hgetO]
  have hproc : processClientMsgs sg.gs ph
      [ClientMessage.join, ClientMessage.observe] =
      some ({ sg.gs with players := ⟨sg.gs.players.slots.set ph
          (some { p with ps := PlayerState.observing })⟩ },
        [ServerMessage.join ph, ServerMessage.observe ph]) := by
    simp only [processClientMsgs, processMessage, hp, hsetJ, hgetO, hsetO]
    simp [List.set_set]
  have hrecv : receivePhase sg.gs
      [(h, (⟨ph, [ClientMessage.join, ClientMessage.observe], false, []⟩ : RemoteClient))] =
      some ({ sg.gs with players := ⟨sg.gs.players.slots.set ph
          (some { p with ps := PlayerState.observing })⟩ },
        [ServerMessage.join ph, ServerMessage.observe ph], []) := by
    simp only [receivePhase, hproc]
    dsimp only
    simp [receivePhase]
  have hpairs1 : (Pool.mapPool clearRC sg.clients).pairs =
      [(h, clearRC (⟨ph, [ClientMessage.join, ClientMessage.observe], false, []⟩ :
        RemoteClient))] := by
    rw [show (Pool.mapPool clearRC sg.clients).pairs =
      sg.clients.pairs.map (fun pc => (pc.1, clearRC pc.2)) from
      pairsAux_map clearRC sg.clients.slots 0, hpairs]
    rfl
  have hok1 : AllOk ({ sg with
      gs := { sg.gs with players := ⟨sg.gs.players.slots.set ph
        (some { p with ps := PlayerState.observing })⟩ },
      clients := Pool.mapPool clearRC sg.clients } : ServerGame) := by
    intro pc hpc
    have hpc2 : pc ∈ (Pool.mapPool clearRC sg.clients).pairs := hpc
    rw [hpairs1] at hpc2
    rcases List.mem_singleton.mp hpc2 with rfl
    rfl
  refine ⟨{ sg with
      gs := { sg.gs with players := ⟨sg.gs.players.slots.set ph
        (some { p with ps := PlayerState.observing })⟩ },
      clients := Pool.mapPool clearRC sg.clients }, ?_, ?_⟩
  · unfold sysReceiveF
    rw [hpairs, hrecv]
    dsimp only
    rw [disconnectListF_nil]
    dsimp only
    rw [broadcastListF_ok f _ hok1 [ServerMessage.join ph, ServerMessage.observe ph]]
    dsimp only
    rw [show ({ sg with
        gs := { sg.gs with players := ⟨sg.gs.players.slots.set ph
          (some { p with ps := PlayerState.observing })⟩ },
        clients := Pool.mapPool clearRC sg.clients } : ServerGame).clients.pairs =
      [(h, clearRC (⟨ph, [ClientMessage.join, ClientMessage.observe], false, []⟩ :
        RemoteClient))] from hpairs1]
    simp [allBroadcastTrace, mkEv]
  · show (Pool.mk (sg.gs.players.slots.set ph
      (some { p with ps := PlayerState.observing })) : Pool Player).get ph = _
    exact getAux_set_self sg.gs.players.slots ph p _ hp

/-- Witness for C7: a concrete one-client server whose client sends
Join then Observe. -/
theorem rustcycles_c7_join_then_observe_witness :
    c7state.clients.pairs =
        [(0, (⟨0, [ClientMessage.join, ClientMessage.observe], false, []⟩ :
          RemoteClient))] ∧
      c7state.gs.players.get 0 = some obsPlayer ∧
      (∃ sg2, sysReceiveF 1 c7state = some (sg2,
          [mkEv 0 (ServerMessage.join 0), mkEv 0 (ServerMessage.observe 0)]) ∧
        sg2.gs.players.get 0 = some { obsPlayer with ps := PlayerState.observing }) := by
  refine ⟨by decide, by decide, ?_⟩
  exact rustcycles_c7_join_then_observe 1 c7state 0 0 _ obsPlayer (by omega)
    (by decide) rfl (by decide)

/-- C1 counterexample: in the spec's own scenario — client B (handle 1)
sends Join and its stream closes in the same tick — the surviving
client A (handle 0) receives the RemovePlayer broadcast for B BEFORE
the Join broadcast for B: sys_receive runs its disconnect loop before
it sends the accumulated broadcasts, so the claimed order (Join first,
RemovePlayer no earlier than the prune phase) is false on the code. -/
theorem rustcycles_c1_counterexample :
    (sysReceiveF 10 c1state).map (fun r => r.2.map SendEvent.msg) =
      some [ServerMessage.removePlayer 1, ServerMessage.join 1] := by
  decide

/-- C1 amended: within the tick, every survivor still receives every
accumulated Join/Observe broadcast, but only after the RemovePlayer
broadcasts of the disconnect loop: the trace of sys_receive is exactly
the removal trace (all of whose events are RemovePlayer messages)
followed by the accumulated broadcasts (all Join or Observe) fanned out
to the surviving clients in arrival order. -/
theorem rustcycles_c1_ordering (fuel : Nat) (sg : ServerGame)
    (hfuel : (closedPairs sg).length + 2 ≤ fuel)
    (hok : AllOk sg)
    (hlive : ∀ pc ∈ sg.clients.pairs,
      (sg.gs.players.get pc.2.player_handle).isSome = true)
    (hnodp : (sg.clients.pairs.map (fun pc => pc.2.player_handle)).Nodup) :
    ∃ sg2,
      sysReceiveF fuel sg = some (sg2,
        removalTrace (clearedPairs sg) (closedPairs sg) ++
          allBroadcastTrace sg2.clients.pairs (queuedBroadcasts sg.clients.pairs)) ∧
      (∀ e ∈ removalTrace (clearedPairs sg) (closedPairs sg),
        ∃ px, e.msg = ServerMessage.removePlayer px) ∧
      (∀ m ∈ queuedBroadcasts sg.clients.pairs, isJoinOrObserve m) ∧
      sg2.clients.pairs =
        (clearedPairs sg).filter (fun pc => pc.1 ∉ (closedPairs sg).map Prod.fst) := by
  obtain ⟨sg2, hrun, hpairs, _, _, _, _⟩ := sysReceiveF_spec fuel sg hfuel hok hlive hnodp
  exact ⟨sg2, hrun, removalTrace_msgs _ _, queuedBroadcasts_mem _, hpairs⟩

/-- Witness for the amended C1 at the concrete Join-then-close
scenario. -/
theorem rustcycles_c1_ordering_witness :
    ((closedPairs c1state).length + 2 ≤ 10 ∧
      (∀ pc ∈ c1state.clients.pairs, pc.2.sendOutcomes = [])) ∧
    (∃ sg2,
      sysReceiveF 10 c1state = some (sg2,
        removalTrace (clearedPairs c1state) (closedPairs c1state) ++
          allBroadcastTrace sg2.clients.pairs (queuedBroadcasts c1state.clients.pairs)) ∧
      (∀ e ∈ removalTrace (clearedPairs c1state) (closedPairs c1state),
        ∃ px, e.msg = ServerMessage.removePlayer px) ∧
      (∀ m ∈ queuedBroadcasts c1state.clients.pairs, isJoinOrObserve m) ∧
      sg2.clients.pairs = (clearedPairs c1state).filter
        (fun pc => pc.1 ∉ (closedPairs c1state).map Prod.fst)) := by
  refine ⟨⟨by decide, by decide⟩, ?_⟩
  exact rustcycles_c1_ordering 10 c1state (by decide)
    (by show ∀ pc ∈ c1state.clients.pairs, pc.2.sendOutcomes = []; decide)
    (by show ∀ pc ∈ c1state.clients.pairs,
      (c1state.gs.players.get pc.2.player_handle).isSome = true; decide)
    (by decide)

/-- C2 counterexample: when two clients close in the same tick and the
RemovePlayer send to the still-queued second client fails, that client
is disconnected a second time by the pending disconnect loop — freeing
an already-freed registry handle, a panic (modelled none). The sibling
state in which that send succeeds completes the tick normally with the
same fuel, so the failure is the double disconnect, not the fuel. -/
theorem rustcycles_c2_counterexample :
    sysReceiveF 10 c2state = none ∧ (sysReceiveF 10 c2stateOk).isSome = true := by
  decide

/-- C2 amended: provided every send succeeds, each client whose stream
reported closed is removed from the registry, its player freed and its
cycle removed from the simulation, and the complete tick trace contains
exactly one RemovePlayer broadcast carrying its player index — one send
per client remaining in the registry at that moment, i.e. the live
clients minus every client already disconnected up to and including
this one. Without that proviso the code can free a client twice (see
the counterexample). -/
theorem rustcycles_c2_disconnect_consistency (fuel : Nat) (sg : ServerGame)
    (hfuel : (closedPairs sg).length + 2 ≤ fuel)
    (hok : AllOk sg)
    (hlive : ∀ pc ∈ sg.clients.pairs,
      (sg.gs.players.get pc.2.player_handle).isSome = true)
    (hnodp : (sg.clients.pairs.map (fun pc => pc.2.player_handle)).Nodup) :
    ∃ sg2 evs, sysReceiveF fuel sg = some (sg2, evs) ∧
      ∀ pre hc post, closedPairs sg = pre ++ hc :: post →
        sg2.clients.get hc.1 = none ∧
        sg2.gs.players.get hc.2.player_handle = none ∧
        (∀ i cy, sg2.gs.cycles.get i = some cy →
          cy.player_handle ≠ hc.2.player_handle) ∧
        evs.filter (fun e => e.msg = ServerMessage.removePlayer hc.2.player_handle) =
          ((clearedPairs sg).filter
              (fun pc => pc.1 ∉ (pre ++ [hc]).map Prod.fst)).map
            (fun pc => mkEv pc.1 (ServerMessage.removePlayer hc.2.player_handle)) := by
  obtain ⟨sg2, hrun, hpairs, hcget, hplnone, hcyor, hcyne⟩ :=
    sysReceiveF_spec fuel sg hfuel hok hlive hnodp
  refine ⟨sg2, _, hrun, ?_⟩
  intro pre hc post hsplit
  have hmemhc : hc ∈ closedPairs sg := by
    rw [hsplit]
    exact List.mem_append_right _ (List.mem_cons_self _ _)
  have hnodClosed : ((closedPairs sg).map (fun pc => pc.2.player_handle)).Nodup := by
    have hsub : List.Sublist ((closedPairs sg).map (fun pc => pc.2.player_handle))
        ((clearedPairs sg).map (fun pc => pc.2.player_handle)) :=
      (List.filter_sublist _).map _
    have hcl : (clearedPairs sg).map (fun pc => pc.2.player_handle) =
        sg.clients.pairs.map (fun pc => pc.2.player_handle) := by
      show ((sg.clients.pairs.map (fun pc => (pc.1, clearRC pc.2))).map
        (fun pc => pc.2.player_handle)) = _
      rw [List.map_map]
      rfl
    rw [hcl] at hsub
    exact hnodp.sublist hsub
  have hsplitNe := nodup_split_ne (fun pc => pc.2.player_handle) pre hc post
    (by rw [← hsplit]; exact hnodClosed)
  refine ⟨hcget hc hmemhc, hplnone hc hmemhc,
    (fun i cy hcy => hcyne i cy hcy hc hmemhc), ?_⟩
  rw [List.filter_append]
  rw [allBroadcastTrace_filter_remove _ _ _ (queuedBroadcasts_mem _), List.append_nil]
  rw [hsplit]
  exact removalTrace_filter_group pre (clearedPairs sg) hc post hsplitNe.1 hsplitNe.2

/-- Witness for the amended C2 at the concrete Join-then-close
scenario, exhibiting the split of the (single-element) disconnect list. -/
theorem rustcycles_c2_disconnect_consistency_witness :
    ((closedPairs c1state).length + 2 ≤ 10 ∧
      (∀ pc ∈ c1state.clients.pairs, pc.2.sendOutcomes = [])) ∧
    (∃ sg2 evs, sysReceiveF 10 c1state = some (sg2, evs) ∧
      ∀ pre hc post, closedPairs c1state = pre ++ hc :: post →
        sg2.clients.get hc.1 = none ∧
        sg2.gs.players.get hc.2.player_handle = none ∧
        (∀ i cy, sg2.gs.cycles.get i = some cy →
          cy.player_handle ≠ hc.2.player_handle) ∧
        evs.filter (fun e => e.msg = ServerMessage.removePlayer hc.2.player_handle) =
          ((clearedPairs c1state).filter
              (fun pc => pc.1 ∉ (pre ++ [hc]).map Prod.fst)).map
            (fun pc => mkEv pc.1 (ServerMessage.removePlayer hc.2.player_handle))) := by
  refine ⟨⟨by decide, by decide⟩, ?_⟩
  exact rustcycles_c2_disconnect_consistency 10 c1state (by decide)
    (by show ∀ pc ∈ c1state.clients.pairs, pc.2.sendOutcomes = []; decide)
    (by show ∀ pc ∈ c1state.clients.pairs,
      (c1state.gs.players.get pc.2.player_handle).isSome = true; decide)
    (by decide)

/-- C3 counterexample: accepting a connection on a fresh server leaves
player 0 in the Observing state while cycle 0 is associated with that
very player — an observer holding a Cycle, contradicting the claimed
invariant that a non-playing player has no Cycle. -/
theorem rustcycles_c3_counterexample :
    (acceptNewConnectionsF 1 freshServer [conn0] AcceptEnd.wouldBlock).map
      (fun r => (r.1.gs.players.get 0, r.1.gs.cycles.get 0)) =
      some (some ⟨PlayerState.observing, 0⟩, some ⟨0, 0⟩) := by
  decide

/-- C3 amended: every accepted connection immediately spawns a Cycle
for its player even though the player is still observing (it has not
sent Join): after the accept, the new player is live in the Observing
state — not Playing — and a cycle associated to it by its player handle
is live in the simulation. -/
theorem rustcycles_c3_cycle_for_observer (fuel : Nat) (sg : ServerGame)
    (conn : IncomingConn)
    (hfuel : 1 ≤ fuel) (hok : AllOk sg) (hconn : conn.sendOutcomes = []) :
    ∃ sg', acceptNewConnectionsF fuel sg [conn] AcceptEnd.wouldBlock =
        some (sg', acceptOneTrace sg conn) ∧
      sg'.gs.players.get (acceptPH sg) = some Player.new ∧
      Player.new.ps ≠ PlayerState.playing ∧
      sg'.gs.cycles.get (acceptCYH sg) =
        some ⟨acceptPH sg, sg.gs.next_body⟩ := by
  refine ⟨acceptOneState sg conn, acceptF_one fuel sg conn hfuel hok hconn,
    ?_, by decide, ?_⟩
  · show (sg.gs.players.spawn Player.new).1.get
      (sg.gs.players.spawn Player.new).2 = some Player.new
    exact Pool.get_spawn sg.gs.players Player.new
  · show (sg.gs.cycles.spawn ⟨acceptPH sg, sg.gs.next_body⟩).1.get
      (sg.gs.cycles.spawn ⟨acceptPH sg, sg.gs.next_body⟩).2 =
      some ⟨acceptPH sg, sg.gs.next_body⟩
    exact Pool.get_spawn sg.gs.cycles _

/-- Witness for the amended C3 at the fresh server. -/
theorem rustcycles_c3_cycle_for_observer_witness :
    ((∀ pc ∈ freshServer.clients.pairs, pc.2.sendOutcomes = []) ∧
      conn0.sendOutcomes = []) ∧
    (∃ sg', acceptNewConnectionsF 1 freshServer [conn0] AcceptEnd.wouldBlock =
        some (sg', acceptOneTrace freshServer conn0) ∧
      sg'.gs.players.get (acceptPH freshServer) = some Player.new ∧
      Player.new.ps ≠ PlayerState.playing ∧
      sg'.gs.cycles.get (acceptCYH freshServer) =
        some ⟨acceptPH freshServer, freshServer.gs.next_body⟩) := by
  refine ⟨⟨by decide, by decide⟩, ?_⟩
  exact rustcycles_c3_cycle_for_observer 1 freshServer conn0 (by omega)
    (by show ∀ pc ∈ freshServer.clients.pairs, pc.2.sendOutcomes = []; decide)
    (by decide)

/-- C4 counterexample: the first client on a fresh server receives an
InitData whose roster is the one-element list containing its own player
index, not the empty roster the claim states. -/
theorem rustcycles_c4_counterexample :
    (acceptNewConnectionsF 1 freshServer [conn0] AcceptEnd.wouldBlock).map
        (fun r => r.2.map SendEvent.msg) =
      some [ServerMessage.initData ⟨[0], 0, [], []⟩,
        ServerMessage.spawnCycle ⟨0, 0⟩] ∧
    ([0] : List Nat) ≠ [] := by
  refine ⟨by decide, by decide⟩

/-- C4 amended: the first client to connect to a fresh server receives
an InitData whose roster lists exactly its own player index (the player
is spawned before send_init runs) with itself as the local player and
no cycle associations yet; the InitData is sent privately — it is the
only InitData event in the accept trace and its destination is the new
client's handle, never a broadcast. -/
theorem rustcycles_c4_initdata :
    acceptNewConnectionsF 1 freshServer [conn0] AcceptEnd.wouldBlock =
      some (acceptOneState freshServer conn0,
        [mkEv 0 (ServerMessage.initData ⟨[0], 0, [], []⟩),
         mkEv 0 (ServerMessage.spawnCycle ⟨0, 0⟩)]) ∧
    [mkEv 0 (ServerMessage.initData ⟨[0], 0, [], []⟩),
      mkEv 0 (ServerMessage.spawnCycle ⟨0, 0⟩)].filter isInitDataEvent =
      [mkEv 0 (ServerMessage.initData ⟨[0], 0, [], []⟩)] ∧
    acceptCH freshServer conn0 = 0 := by
  refine ⟨by decide, by decide, by decide⟩

/-- C5: for a connection accepted in a tick with all sends succeeding,
the server performs the steps in the fixed source order — spawn the
Player; broadcast AddPlayer to the pre-existing clients (the new client
handle is fresh, so it is not among them); register the RemoteClient;
send it InitData privately; spawn its Cycle; broadcast SpawnCycle to
every registered client including the new one — as recorded by the
accept trace; and the accept loop terminates normally exactly on the
would-block signal: with it the whole drain succeeds, with a fatal
listener error it panics. -/
theorem rustcycles_c5_accept_order (fuel : Nat) (sg : ServerGame)
    (conn : IncomingConn)
    (hfuel : 1 ≤ fuel) (hok : AllOk sg) (hconn : conn.sendOutcomes = []) :
    acceptNewConnectionsF fuel sg [conn] AcceptEnd.wouldBlock =
        some (acceptOneState sg conn, acceptOneTrace sg conn) ∧
      acceptCH sg conn ∉ sg.clients.pairs.map Prod.fst ∧
      (acceptCH sg conn, RemoteClient.newClient conn (acceptPH sg)) ∈
        (sg.clients.spawn (RemoteClient.newClient conn (acceptPH sg))).1.pairs ∧
      (∀ conns : List IncomingConn, (∀ cn ∈ conns, cn.sendOutcomes = []) →
        ∃ r, acceptNewConnectionsF fuel sg conns AcceptEnd.wouldBlock = some r) ∧
      (∀ conns : List IncomingConn, (∀ cn ∈ conns, cn.sendOutcomes = []) →
        acceptNewConnectionsF fuel sg conns AcceptEnd.fatalError = none) := by
  refine ⟨acceptF_one fuel sg conn hfuel hok hconn, ?_, ?_, ?_, ?_⟩
  · exact spawn_fst_not_mem sg.clients (RemoteClient.newClient conn (acceptPH sg))
  · exact mem_pairs_spawn_new sg.clients (RemoteClient.newClient conn (acceptPH sg))
  · intro conns hconns
    exact acceptF_wouldBlock_some conns fuel sg hfuel hok hconns
  · intro conns hconns
    exact acceptF_fatal_none conns fuel sg hfuel hok hconns

/-- Witness for C5 at a two-client server accepting one quiet
connection. -/
theorem rustcycles_c5_accept_order_witness :
    ((∀ pc ∈ c1state.clients.pairs, pc.2.sendOutcomes = []) ∧
      conn0.sendOutcomes = []) ∧
    (acceptNewConnectionsF 1 c1state [conn0] AcceptEnd.wouldBlock =
        some (acceptOneState c1state conn0, acceptOneTrace c1state conn0) ∧
      acceptCH c1state conn0 ∉ c1state.clients.pairs.map Prod.fst ∧
      (acceptCH c1state conn0, RemoteClient.newClient conn0 (acceptPH c1state)) ∈
        (c1state.clients.spawn (RemoteClient.newClient conn0 (acceptPH c1state))).1.pairs ∧
      (∀ conns : List IncomingConn, (∀ cn ∈ conns, cn.sendOutcomes = []) →
        ∃ r, acceptNewConnectionsF 1 c1state conns AcceptEnd.wouldBlock = some r) ∧
      (∀ conns : List IncomingConn, (∀ cn ∈ conns, cn.sendOutcomes = []) →
        acceptNewConnectionsF 1 c1state conns AcceptEnd.fatalError = none)) := by
  refine ⟨⟨by decide, by decide⟩, ?_⟩
  exact rustcycles_c5_accept_order 1 c1state conn0 (by omega)
    (by show ∀ pc ∈ c1state.clients.pairs, pc.2.sendOutcomes = []; decide)
    (by decide)

end Rustcycles
